import Mathlib

set_option maxRecDepth 4000

namespace UXAgent

/-! ### SHA-256 over byte sequences

Models Python `hashlib.sha256(data).hexdigest()` as used by
`utils/dom_processor.py`.  Bytes are natural numbers below 256; all word
arithmetic is explicitly reduced modulo 2^32. -/

def w32 : Nat := 4294967296

def rotr (n x : Nat) : Nat := ((x >>> n) ||| (x <<< (32 - n))) % w32

def bigSigma0 (x : Nat) : Nat := rotr 2 x ^^^ rotr 13 x ^^^ rotr 22 x

def bigSigma1 (x : Nat) : Nat := rotr 6 x ^^^ rotr 11 x ^^^ rotr 25 x

def smallSigma0 (x : Nat) : Nat := rotr 7 x ^^^ rotr 18 x ^^^ (x >>> 3)

def smallSigma1 (x : Nat) : Nat := rotr 17 x ^^^ rotr 19 x ^^^ (x >>> 10)

def shaK : List Nat :=
  [1116352408, 1899447441, 3049323471, 3921009573, 961987163, 1508970993,
   2453635748, 2870763221, 3624381080, 310598401, 607225278, 1426881987,
   1925078388, 2162078206, 2614888103, 3248222580, 3835390401, 4022224774,
   264347078, 604807628, 770255983, 1249150122, 1555081692, 1996064986,
   2554220882, 2821834349, 2952996808, 3210313671, 3336571891, 3584528711,
   113926993, 338241895, 666307205, 773529912, 1294757372, 1396182291,
   1695183700, 1986661051, 2177026350, 2456956037, 2730485921, 2820302411,
   3259730800, 3345764771, 3516065817, 3600352804, 4094571909, 275423344,
   430227734, 506948616, 659060556, 883997877, 958139571, 1322822218,
   1537002063, 1747873779, 1955562222, 2024104815, 2227730452, 2361852424,
   2428436474, 2756734187, 3204031479, 3329325298]

def shaH0 : List Nat :=
  [1779033703, 3144134277, 1013904242, 2773480762,
   1359893119, 2600822924, 528734635, 1541459225]

def be8 (n : Nat) : List Nat :=
  [(n >>> 56) % 256, (n >>> 48) % 256, (n >>> 40) % 256, (n >>> 32) % 256,
   (n >>> 24) % 256, (n >>> 16) % 256, (n >>> 8) % 256, n % 256]

def padMessage (msg : List Nat) : List Nat :=
  let l := msg.length
  let padLen := (64 + 55 - (l % 64)) % 64
  msg ++ [0x80] ++ List.replicate padLen 0 ++ be8 (8 * l)

def chunksN : Nat → List Nat → List (List Nat)
  | 0, _ => []
  | n + 1, l => l.take 64 :: chunksN n (l.drop 64)

def chunks64 (l : List Nat) : List (List Nat) := chunksN (l.length / 64) l

def blockWords (block : List Nat) : List Nat :=
  (List.range 16).map (fun i =>
    ((block.getD (4 * i) 0) <<< 24) + ((block.getD (4 * i + 1) 0) <<< 16) +
    ((block.getD (4 * i + 2) 0) <<< 8) + block.getD (4 * i + 3) 0)

def extendSchedule : Nat → List Nat → List Nat
  | 0, ws => ws
  | n + 1, ws =>
    let i := ws.length
    extendSchedule n (ws ++ [(ws.getD (i - 16) 0 + smallSigma0 (ws.getD (i - 15) 0) +
      ws.getD (i - 7) 0 + smallSigma1 (ws.getD (i - 2) 0)) % w32])

def roundStep (kw : Nat × Nat) (s : List Nat) : List Nat :=
  let a := s.getD 0 0
  let b := s.getD 1 0
  let c := s.getD 2 0
  let d := s.getD 3 0
  let e := s.getD 4 0
  let f := s.getD 5 0
  let g := s.getD 6 0
  let h := s.getD 7 0
  let t1 := (h + bigSigma1 e + ((e &&& f) ^^^ ((e ^^^ 4294967295) &&& g)) + kw.1 + kw.2) % w32
  let t2 := (bigSigma0 a + ((a &&& b) ^^^ (a &&& c) ^^^ (b &&& c))) % w32
  [(t1 + t2) % w32, a, b, c, (d + t1) % w32, e, f, g]

def processBlock (hs : List Nat) (block : List Nat) : List Nat :=
  let ws := extendSchedule 48 (blockWords block)
  let s := (shaK.zip ws).foldl (fun st kw => roundStep kw st) hs
  (hs.zip s).map (fun p => (p.1 + p.2) % w32)

def sha256Words (msg : List Nat) : List Nat :=
  (chunks64 (padMessage msg)).foldl processBlock shaH0

def hexChar (n : Nat) : Char := ("0123456789abcdef".data).getD n '0'

def byteHex (b : Nat) : List Char := [hexChar (b / 16), hexChar (b % 16)]

def wordBytes (w : Nat) : List Nat := [(w >>> 24) % 256, (w >>> 16) % 256, (w >>> 8) % 256, w % 256]

def sha256hexBytes (msg : List Nat) : String :=
  String.mk (((((sha256Words msg).map wordBytes).flatten).map byteHex).flatten)

/-- UTF-8 encoding of one character, modelling Python `str.encode(\x27utf-8\x27)`. -/
def charUtf8 (c : Char) : List Nat :=
  let n := c.toNat
  if n < 128 then [n]
  else if n < 2048 then [192 + n / 64, 128 + n % 64]
  else if n < 65536 then [224 + n / 4096, 128 + (n / 64) % 64, 128 + n % 64]
  else [240 + n / 262144, 128 + (n / 4096) % 64, 128 + (n / 64) % 64, 128 + n % 64]

def utf8Bytes (s : String) : List Nat := s.data.flatMap charUtf8

/-- Models `hashlib.sha256(s.encode(\x27utf-8\x27)).hexdigest()`. -/
def sha256hex (s : String) : String := sha256hexBytes (utf8Bytes s)

/-! ### DOM model and the structural fingerprint
(`utils/dom_processor.py`, `generate_structural_hash` and `_build_structure_tree`).

An HTML parse tree (the result of `BeautifulSoup(html, \x27html.parser\x27)`) is a
`DomNode`: elements carry their tag name, an ordered attribute list (first
occurrence of a duplicate attribute wins, as in the Python parser), and child
nodes; text nodes carry raw content.  Parsing itself is an external library
call, so the embedding takes the parser as a function `String → Option DomNode`,
`none` modelling the case in which `BeautifulSoup` raises. -/

inductive DomNode where
  | element (tag : String) (attrs : List (String × String)) (children : List DomNode)
  | text (content : String)

def getAttr (attrs : List (String × String)) (name : String) : Option String :=
  attrs.lookup name

/-- Models `element.get(\x27class\x27, [])`: the class attribute split into tokens. -/
def getClasses (attrs : List (String × String)) : List String :=
  (((getAttr attrs "class").getD "").splitOn " ").filter (fun s => s ≠ "")

def isLowerAlpha (c : Char) : Bool := 'a' ≤ c && c ≤ 'z'

def classBody : List Char → Bool
  | [] => false
  | [c] => isLowerAlpha c
  | c :: rest => (isLowerAlpha c || c == '-') && classBody rest

/-- Models `re.match(r\x27^[a-z][a-z-]*[a-z]$\x27, cls)`. -/
def matchesClassRegex (s : String) : Bool :=
  match s.data with
  | [] => false
  | [_] => false
  | c :: rest => isLowerAlpha c && classBody rest

/-- The filter applied to each class token in `_build_structure_tree`. -/
def isStructuralClass (s : String) : Bool :=
  matchesClassRegex s && decide (s.length > 3)

def sortStrings (l : List String) : List String :=
  List.insertionSort (fun a b => a ≤ b) l

/-- The serialized token of one element: tag name, filtered sorted classes,
`role` if truthy, `type` (already gated on the tag being `input`) if truthy. -/
def nodeSig (tag : String) (classes : List String) (role ityp : Option String) : String :=
  let s1 := "<" ++ tag
  let s2 := match classes with
    | [] => s1
    | _ => s1 ++ " class=\x27" ++ String.intercalate " " classes ++ "\x27"
  let s3 := match role with
    | some r => if r = "" then s2 else s2 ++ " role=\x27" ++ r ++ "\x27"
    | none => s2
  let s4 := match ityp with
    | some t => if t = "" then s3 else s3 ++ " type=\x27" ++ t ++ "\x27"
    | none => s3
  s4 ++ ">"

mutual

/-- Models `_build_structure_tree(element, depth, max_depth=15)`. -/
def buildStructureTree : DomNode → Nat → String
  | .text _, _ => ""
  | .element tag attrs children, depth =>
    if depth > 15 then ""
    else
      nodeSig tag (sortStrings ((getClasses attrs).filter isStructuralClass))
          (getAttr attrs "role") (if tag = "input" then getAttr attrs "type" else none) ++
        buildChildrenSig children (depth + 1) ++ "</" ++ tag ++ ">"

def buildChildrenSig : List DomNode → Nat → String
  | [], _ => ""
  | c :: cs, depth => buildStructureTree c depth ++ buildChildrenSig cs depth

end

def strippedTags : List String := ["script", "style", "svg", "noscript"]

def isBannedNode : DomNode → Bool
  | .element tag _ _ => strippedTags.contains tag
  | .text _ => false

mutual

/-- Models `for tag in soup([\x27script\x27, \x27style\x27, \x27svg\x27, \x27noscript\x27]): tag.decompose()`. -/
def removeNonStructural : DomNode → DomNode
  | .text s => .text s
  | .element tag attrs children => .element tag attrs (removeNSList children)

def removeNSList : List DomNode → List DomNode
  | [] => []
  | c :: cs => if isBannedNode c then removeNSList cs else removeNonStructural c :: removeNSList cs

end

/-- Models `generate_structural_hash(html)`, with the `BeautifulSoup` call
abstracted as `parse`; `parse html = none` models the `except` branch. -/
def generate_structural_hash (parse : String → Option DomNode) (html : String) : String :=
  match parse html with
  | some soup => sha256hex (buildStructureTree (removeNonStructural soup) 0)
  | none => sha256hex html

/-! ### A structurally recursive formulation of the depth-bounded walk

`buildAux fuel t` is `_build_structure_tree(t, depth)` with `fuel = 16 - depth`:
the recursion carries the remaining depth budget, so `fuel = 0` is exactly the
`depth > max_depth = 15` cutoff.  It is proved equal to `buildStructureTree`
below and, being structural in `fuel`, it evaluates inside the kernel. -/

def concatMapStr (f : α → String) : List α → String
  | [] => ""
  | a :: l => f a ++ concatMapStr f l

def buildAux : Nat → DomNode → String
  | _, .text _ => ""
  | 0, .element _ _ _ => ""
  | fuel + 1, .element tag attrs children =>
    nodeSig tag (sortStrings ((getClasses attrs).filter isStructuralClass))
        (getAttr attrs "role") (if tag = "input" then getAttr attrs "type" else none) ++
      concatMapStr (buildAux fuel) children ++ "</" ++ tag ++ ">"

/-! ### The structural projection of a DOM tree

`ProjTree` records exactly the data the fingerprint determinism claim
quantifies over: tag name, filtered-and-sorted class tokens, the raw `role`
attribute, the raw `type` attribute on `input` elements, for every element
node up to the depth bound of 15 (deeper nodes and text nodes project to
nothing).  `structuralProjection` is stated from the claim, not from the
source; the theorem below shows the source's fingerprint is a function of it. -/

inductive ProjTree where
  | node (tag : String) (classes : List String) (role : Option String)
      (inputType : Option String) (children : List ProjTree)

def projAux : Nat → DomNode → Option ProjTree
  | _, .text _ => none
  | 0, .element _ _ _ => none
  | fuel + 1, .element tag attrs children =>
    some (.node tag (sortStrings ((getClasses attrs).filter isStructuralClass))
      (getAttr attrs "role") (if tag = "input" then getAttr attrs "type" else none)
      (children.filterMap (projAux fuel)))

/-- The tag/class(filtered, sorted)/role/type-on-input structure of a parsed
document, at every node up to recursion depth 15. -/
def structuralProjection (t : DomNode) : Option ProjTree := projAux 16 t

def bannedTagP : ProjTree → Bool
  | .node tag _ _ _ _ => strippedTags.contains tag

mutual

def projRemove : ProjTree → ProjTree
  | .node tag classes role ityp children => .node tag classes role ityp (projRemoveList children)

def projRemoveList : List ProjTree → List ProjTree
  | [] => []
  | p :: ps => if bannedTagP p then projRemoveList ps else projRemove p :: projRemoveList ps

end

mutual

def buildFromProj : ProjTree → String
  | .node tag classes role ityp children =>
    nodeSig tag classes role ityp ++ buildProjList children ++ "</" ++ tag ++ ">"

def buildProjList : List ProjTree → String
  | [] => ""
  | p :: ps => buildFromProj p ++ buildProjList ps

end

def projBuildOpt : Option ProjTree → String
  | some p => buildFromProj p
  | none => ""

/-- Documents `docA` and `docB` below have identical structural skeletons but different
text, different non-kept attribute values (`id`, `data-x`), different attribute
order, and different script content. -/
def docA : DomNode :=
  .element "[document]" [] [
    .element "div" [("class", "product-container"), ("id", "a1")] [
      .element "h1" [] [.text "iPhone"],
      .element "p" [("class", "price")] [.text "999"],
      .element "script" [] [.text "tracker()"],
      .element "input" [("type", "text"), ("data-x", "1")] []]]

def docB : DomNode :=
  .element "[document]" [] [
    .element "div" [("id", "b2"), ("class", "product-container")] [
      .element "h1" [] [.text "Galaxy"],
      .element "p" [("class", "price")] [.text "1199"],
      .element "script" [] [.text "analytics()"],
      .element "input" [("data-x", "2"), ("type", "text")] []]]

def parseTest : String → Option DomNode := fun s =>
  if s = "htmlA" then some docA else if s = "htmlB" then some docB else none

/-! ### String helpers for the crawler
Python substring membership (`needle in hay`) and `str.lower()`. -/

def charLower (c : Char) : Char :=
  if 'A' ≤ c && c ≤ 'Z' then Char.ofNat (c.toNat + 32) else c

def strLower (s : String) : String := String.mk (s.data.map charLower)

def leadMatch : List Char → List Char → Bool
  | [], _ => true
  | _ :: _, [] => false
  | a :: as, b :: bs => a == b && leadMatch as bs

def charsContain (needle : List Char) : List Char → Bool
  | [] => leadMatch needle []
  | c :: t => leadMatch needle (c :: t) || charsContain needle t

/-- Models Python `needle in hay` on strings. -/
def containsStr (hay needle : String) : Bool := charsContain needle.data hay.data

/-! ### Data model (`models/schemas.py`, the fields the Scout reads or writes)

`payload_structure` and `response_structure` are parsed-JSON values treated as
uninterpreted data, embedded as `Option String`. -/

structure NetworkIntercept where
  url : String
  method : String
  status_code : Option Nat
  payload_structure : Option String
  response_structure : Option String
deriving DecidableEq

structure PageCluster where
  cluster_id : String
  representative_url : String
  total_pages_in_cluster : Nat
  sample_urls : List String
  network_intercepts : List NetworkIntercept
  forms_found : Nat
  cleaned_dom_tokens : Nat
  raw_dom_size : Nat
deriving DecidableEq

/-- Models the result of `urllib.parse.urlparse` restricted to the components
the Scout reads (`scheme`, `netloc`, `path`). -/
structure UrlParts where
  scheme : String
  netloc : String
  path : String
deriving DecidableEq

/-- Models `estimate_tokens` from `utils/dom_processor.py`. -/
def estimate_tokens (text : String) : Nat := text.length / 4

/-- Constructor arguments of `Scout.__init__` together with the external
library functions the Scout calls: `parse` is `BeautifulSoup`, `urljoin` and
`urlparse` are from `urllib.parse`, `cleanDom` returns the
`(cleaned_html, cleaned_size)` components of `clean_dom_for_llm`, and
`formCount` is `extract_form_data(html)[\x27total_forms\x27]`. -/
structure ScoutConfig where
  base_url : String
  max_pages : Nat
  max_depth : Nat
  parse : String → Option DomNode
  urljoin : String → String → String
  urlparse : String → UrlParts
  cleanDom : String → String × Nat
  formCount : String → Nat

/-- Models `self.domain = urlparse(base_url).netloc`. -/
def ScoutConfig.domain (cfg : ScoutConfig) : String := (cfg.urlparse cfg.base_url).netloc

/-- The mutable attributes of a `Scout` instance. -/
structure ScoutState where
  visited_urls : List String
  url_queue : List (String × Nat)
  clusters : List (String × PageCluster)
  network_logs : List (String × List NetworkIntercept)
  pages_crawled : Nat
  pages_skipped_by_clustering : Nat
  total_tokens_saved : Nat
  all_discovered_urls : List String
  is_authenticated : Bool
deriving DecidableEq

def initState (cfg : ScoutConfig) : ScoutState :=
  { visited_urls := []
    url_queue := [(cfg.base_url, 0)]
    clusters := []
    network_logs := []
    pages_crawled := 0
    pages_skipped_by_clustering := 0
    total_tokens_saved := 0
    all_discovered_urls := []
    is_authenticated := false }

/-- Python `set.add`. -/
def addUrl (u : String) (l : List String) : List String := if u ∈ l then l else l ++ [u]

/-- Python dict lookup `d.get(k)` / membership `k in d` for the assoc-list
dict model (keys are unique in every state the Scout builds). -/
def lookupKey (k : String) : List (String × α) → Option α
  | [] => none
  | (k1, v) :: rest => if k1 = k then some v else lookupKey k rest

def addAll (us : List String) (l : List String) : List String :=
  us.foldl (fun acc u => addUrl u acc) l

/-- Mutating `d[k]` in place for the (unique-keyed) dict model. -/
def updateFirst (k : String) (f : α → α) : List (String × α) → List (String × α)
  | [] => []
  | (k1, v) :: rest => if k1 = k then (k1, f v) :: rest else (k1, v) :: updateFirst k f rest

/-- Python `del d[k]`. -/
def removeKey (k : String) (l : List (String × α)) : List (String × α) :=
  l.filter (fun kv => kv.1 != k)

/-- Python `defaultdict(list)` append: `d[k].append(i)`. -/
def appendLog (k : String) (i : NetworkIntercept) :
    List (String × List NetworkIntercept) → List (String × List NetworkIntercept)
  | [] => [(k, [i])]
  | (k1, l) :: rest => if k1 = k then (k1, l ++ [i]) :: rest else (k1, l) :: appendLog k i rest

/-! ### The crawl transition system (`core/scout.py`)

Environment nondeterminism is an explicit event stream: a `visit` event pops
one frontier entry and runs `_process_page` with the renderer's outcome for
that navigation; a `response` event runs `_handle_response`; `navScan` and
`addPriority` are the pre-loop steps 2 and 3 of `crawl`. -/

/-- The renderer-visible outcome of `page.goto` + `page.content()` +
link extraction inside one `_process_page` call: `navFail` is a missing
response, an error status, or a raised exception before content is read;
`loaded` carries the final URL, the page content (`none` when
`page.content()` raises), and the hrefs later returned by `_extract_links`. -/
inductive Outcome where
  | navFail
  | loaded (finalUrl : String) (content : Option String) (links : List String)
deriving DecidableEq

/-- The data `_handle_response` reads from a Playwright response/request pair.
`payloadParsed` is `json.loads(request.post_data)` when present and parseable
(else `none`), `bodyParsed` is `response.json()` or `none` when it raises. -/
structure ResponseEvent where
  url : String
  method : String
  status : Nat
  contentType : String
  resourceType : String
  payloadParsed : Option String
  bodyParsed : Option String
  frameUrl : Option String
deriving DecidableEq

inductive Event where
  | navScan (links : List String)
  | addPriority (url : String)
  | visit (o : Outcome)
  | response (r : ResponseEvent)
deriving DecidableEq

/-- The auth-wall check in `_process_page`:
`final_url != url and (\x27login\x27 in final_url.lower() or \x27signin\x27 in final_url.lower())`. -/
def isAuthRedirect (url finalUrl : String) : Bool :=
  finalUrl != url &&
    (containsStr (strLower finalUrl) "login" || containsStr (strLower finalUrl) "signin")

/-- Models `estimate_tokens(str(cleaned_size))` in the duplicate branch. -/
def tokensSavedOn (cfg : ScoutConfig) (html : String) : Nat :=
  estimate_tokens (toString (cfg.cleanDom html).2)

/-- Models `Scout._create_cluster`. -/
def createCluster (cfg : ScoutConfig) (url hash html : String) : PageCluster :=
  { cluster_id := hash
    representative_url := url
    total_pages_in_cluster := 1
    sample_urls := [url]
    network_intercepts := []
    forms_found := cfg.formCount html
    cleaned_dom_tokens := estimate_tokens (cfg.cleanDom html).1
    raw_dom_size := html.length }

/-- The duplicate-sighting mutation: increment the counter, append the URL to
`sample_urls` only while its length is below 5. -/
def bumpCluster (url : String) (c : PageCluster) : PageCluster :=
  if c.sample_urls.length < 5 then
    { c with
      total_pages_in_cluster := c.total_pages_in_cluster + 1
      sample_urls := c.sample_urls ++ [url] }
  else { c with total_pages_in_cluster := c.total_pages_in_cluster + 1 }

/-- The clean-URL f-string of the Scout (scheme, netloc, path concatenated): the
query/fragment-stripped canonical URL. -/
def cleanUrl (p : UrlParts) : String := p.scheme ++ "://" ++ p.netloc ++ p.path

/-- One iteration of the link loop in `Scout._extract_links`: join against the
current URL, keep same-domain non-visited links, strip query/fragment, enqueue
at `current_depth + 1`. -/
def linkEntry (cfg : ScoutConfig) (visited : List String) (current_url : String)
    (current_depth : Nat) (link : String) : Option (String × Nat) :=
  if (cfg.urlparse (cfg.urljoin current_url link)).netloc = cfg.domain ∧
      ¬ cfg.urljoin current_url link ∈ visited then
    if cleanUrl (cfg.urlparse (cfg.urljoin current_url link)) ∈ visited then none
    else some (cleanUrl (cfg.urlparse (cfg.urljoin current_url link)), current_depth + 1)
  else none

/-- Models `Scout._extract_links`. -/
def extract_links (cfg : ScoutConfig) (st : ScoutState) (current_url : String)
    (current_depth : Nat) (links : List String) : ScoutState :=
  { st with
    all_discovered_urls := addAll links st.all_discovered_urls
    url_queue := st.url_queue ++ links.filterMap (linkEntry cfg st.visited_urls current_url current_depth) }

/-- The cluster lookup-or-create of `_process_page`: the `is_new_cluster`
branch pair. -/
def clusterResolve (cfg : ScoutConfig) (st : ScoutState) (url html h : String) : ScoutState :=
  match lookupKey h st.clusters with
  | none => { st with clusters := st.clusters ++ [(h, createCluster cfg url h html)] }
  | some _ =>
    { st with
      clusters := updateFirst h (bumpCluster url) st.clusters
      total_tokens_saved := st.total_tokens_saved + tokensSavedOn cfg html
      pages_skipped_by_clustering := st.pages_skipped_by_clustering + 1 }

/-- The buffer drain of `_process_page`:
`if url in self.network_logs: cluster.network_intercepts.extend(...); del self.network_logs[url]`. -/
def drainFor (st : ScoutState) (url h : String) : ScoutState :=
  match lookupKey url st.network_logs with
  | some buf =>
    { st with
      clusters := updateFirst h
        (fun c => { c with network_intercepts := c.network_intercepts ++ buf }) st.clusters
      network_logs := removeKey url st.network_logs }
  | none => st

/-- Models `self.visited_urls.add(url); self.pages_crawled += 1`. -/
def markVisited (st : ScoutState) (url : String) : ScoutState :=
  { st with
    visited_urls := addUrl url st.visited_urls
    pages_crawled := st.pages_crawled + 1 }

/-- The success path of `Scout._process_page` (lines 393-420): resolve or
create the cluster, drain the intercept buffer for this URL, mark visited,
count the page, and extract links when below the depth bound. -/
def successVisit (cfg : ScoutConfig) (st : ScoutState) (url : String) (depth : Nat)
    (html : String) (links : List String) : ScoutState :=
  let h := generate_structural_hash cfg.parse html
  let st3 := markVisited (drainFor (clusterResolve cfg st url html h) url h) url
  if depth < cfg.max_depth then extract_links cfg st3 url depth links else st3

/-- Models `Scout._process_page`. -/
def process_page (cfg : ScoutConfig) (st : ScoutState) (url : String) (depth : Nat)
    (o : Outcome) : ScoutState :=
  match o with
  | .navFail => st
  | .loaded finalUrl content links =>
    if isAuthRedirect url finalUrl then st
    else
      match content with
      | none => st
      | some html => successVisit cfg st url depth html links

/-- The keyword table of `Scout._extract_nav_links`. -/
def importantKeywords : List String :=
  ["login", "signin", "sign-in", "signup", "register", "sign-up", "join",
   "sell", "seller", "become-seller", "account", "profile", "dashboard",
   "cart", "checkout", "contact", "about", "help"]

def isImportantLink (link : String) : Bool :=
  importantKeywords.any (fun k => containsStr (strLower link) k)

/-- The per-link classification loop of `_extract_nav_links`: drop links on a
foreign domain, strip query/fragment, and tag each survivor as important. -/
def navCleanLinks (cfg : ScoutConfig) (links : List String) : List (Bool × String) :=
  links.filterMap (fun link =>
    let p := cfg.urlparse link
    if p.netloc ≠ "" ∧ p.netloc ≠ cfg.domain then none
    else some (isImportantLink link, p.scheme ++ "://" ++ p.netloc ++ p.path))

/-- Models `Scout._extract_nav_links` given the hrefs returned by the
in-page evaluation: important links are pushed to the front at depth 0, the
first 10 regular links are appended at depth 1. -/
def extract_nav_links (cfg : ScoutConfig) (st : ScoutState) (navLinks : List String) : ScoutState :=
  let cleaned := navCleanLinks cfg navLinks
  let priority := (cleaned.filter (fun b => b.1)).map (fun b => b.2)
  let regular := (cleaned.filter (fun b => !b.1)).map (fun b => b.2)
  let q1 := priority.foldl (fun q l => if l ∈ st.visited_urls then q else (l, 0) :: q) st.url_queue
  let q2 := q1 ++ (regular.take 10).filterMap
    (fun l => if l ∈ st.visited_urls then none else some (l, 1))
  { st with
    all_discovered_urls := addAll navLinks st.all_discovered_urls
    url_queue := q2 }

/-- STEP 3 of `Scout.crawl`: one priority URL from `self.priority_urls`. -/
def add_priority_url (cfg : ScoutConfig) (st : ScoutState) (raw : String) : ScoutState :=
  let full := cfg.urljoin cfg.base_url raw
  if full ∈ st.visited_urls then st
  else { st with url_queue := (full, 0) :: st.url_queue }

/-- The filter and record construction of `Scout._handle_response`; `none`
models the early returns for non-JSON or non-xhr/fetch traffic. -/
def builtIntercept (r : ResponseEvent) : Option (String × NetworkIntercept) :=
  if ¬ containsStr r.contentType "application/json" then none
  else if ¬ (r.resourceType = "xhr" ∨ r.resourceType = "fetch") then none
  else
    let payload := if r.method = "POST" ∨ r.method = "PUT" ∨ r.method = "PATCH"
      then r.payloadParsed else none
    some (r.frameUrl.getD r.url,
      { url := r.url, method := r.method, status_code := some r.status,
        payload_structure := payload, response_structure := r.bodyParsed })

/-- Models `Scout._handle_response`. -/
def handle_response (st : ScoutState) (r : ResponseEvent) : ScoutState :=
  match builtIntercept r with
  | none => st
  | some (k, i) => { st with network_logs := appendLog k i st.network_logs }

/-- What an event appends to the intercept buffer, if anything. -/
def delivers : Event → Option (String × NetworkIntercept)
  | .response r => builtIntercept r
  | _ => none

/-- The observable record of one pop of the frontier queue. -/
structure PopRec where
  url : String
  depth : Nat
  wasVisited : Bool
  processed : Bool
deriving DecidableEq

/-- One step of the system: the crawl loop body of `Scout.crawl` for `visit`
events (guarded by `url_queue and pages_crawled < max_pages`), the
asynchronous response handler, and the two pre-loop queue-seeding steps. -/
def crawlStep (cfg : ScoutConfig) (st : ScoutState) : Event → ScoutState × Option PopRec
  | .navScan links => (extract_nav_links cfg st links, none)
  | .addPriority u => (add_priority_url cfg st u, none)
  | .response r => (handle_response st r, none)
  | .visit o =>
    if st.pages_crawled < cfg.max_pages then
      match st.url_queue with
      | [] => (st, none)
      | (url, depth) :: rest =>
        let st1 := { st with url_queue := rest }
        if url ∈ st.visited_urls ∨ depth > cfg.max_depth then
          (st1, some ⟨url, depth, decide (url ∈ st.visited_urls), false⟩)
        else
          (process_page cfg st1 url depth o, some ⟨url, depth, decide (url ∈ st.visited_urls), true⟩)
    else (st, none)

def runTrace (cfg : ScoutConfig) (st : ScoutState) : List Event → ScoutState
  | [] => st
  | e :: tr => runTrace cfg (crawlStep cfg st e).1 tr

def runLog (cfg : ScoutConfig) (st : ScoutState) : List Event → List PopRec
  | [] => []
  | e :: tr => (crawlStep cfg st e).2.toList ++ runLog cfg (crawlStep cfg st e).1 tr

def sumClusterTotals (clusters : List (String × PageCluster)) : Nat :=
  (clusters.map (fun kc => kc.2.total_pages_in_cluster)).sum

def allIntercepts (clusters : List (String × PageCluster)) : List NetworkIntercept :=
  (clusters.map (fun kc => kc.2.network_intercepts)).flatten

def allClusterIntercepts (st : ScoutState) : List NetworkIntercept :=
  allIntercepts st.clusters

/-- The buffered intercepts whose page URL has not been visited yet: only
these can still be drained into a cluster. -/
def bufferPool (visited : List String) (logs : List (String × List NetworkIntercept)) :
    List NetworkIntercept :=
  ((logs.filter (fun kl => decide (¬ kl.1 ∈ visited))).map (fun kl => kl.2)).flatten

/-- The intercept records that can still reach a cluster: those already in a
cluster plus those buffered under a not-yet-visited page URL. -/
def livePool (st : ScoutState) : List NetworkIntercept :=
  allClusterIntercepts st ++ bufferPool st.visited_urls st.network_logs

/-- STEP 7 of `Scout._perform_login`: `logged_in` as a function of whether any
post-login indicator selector was found and of the post-submit URL
(`current_url == self.base_url or \x27login\x27 not in current_url.lower()`). -/
def login_verified (indicatorFound : Bool) (base_url current_url : String) : Bool :=
  indicatorFound ||
    (current_url == base_url || !(containsStr (strLower current_url) "login"))

/-! ### Concrete configurations, counterexamples, and witnesses

`exCfg` crawls the site `http://s.com`; its URL parser splits URLs of the form
`http://s.com<path>` and its DOM parser always fails, exercising the raw-hash
fallback inside the fingerprint. -/

def exCfg : ScoutConfig :=
  { base_url := "http://s.com"
    max_pages := 10
    max_depth := 3
    parse := fun _ => none
    urljoin := fun _ l => l
    urlparse := fun s => ⟨"http", "s.com", s.drop 12⟩
    cleanDom := fun h => (h, h.length)
    formCount := fun _ => 0 }

/-- The homepage links to the same page twice, the duplicate entry is popped
after its URL has been visited. -/
def traceC5 : List Event :=
  [.visit (.loaded "http://s.com" (some "<home>") ["http://s.com/a", "http://s.com/a"]),
   .visit (.loaded "http://s.com/a" (some "<page-a>") []),
   .visit .navFail]

def stVisited : ScoutState :=
  { initState exCfg with
    visited_urls := ["http://s.com/a"]
    url_queue := [("http://s.com/a", 1)] }

def linksC6 : List String :=
  ["http://s.com/p1", "http://s.com/p2", "http://s.com/p3", "http://s.com/p4",
   "http://s.com/p5", "http://s.com/p6", "http://s.com/p7", "http://s.com/p8",
   "http://s.com/p9", "http://s.com/p10", "http://s.com/p11"]

def traceC6 : List Event := [.visit (.loaded "http://s.com" (some "<home>") linksC6)]

/-- A state whose frontier head exceeds `max_depth = 3`. -/
def stDeep : ScoutState :=
  { initState exCfg with url_queue := [("http://s.com/deep", 4)] }

def i9 : NetworkIntercept :=
  { url := "http://s.com/api"
    method := "GET"
    status_code := some 200
    payload_structure := none
    response_structure := none }

def r9 : ResponseEvent :=
  { url := "http://s.com/api"
    method := "GET"
    status := 200
    contentType := "application/json"
    resourceType := "xhr"
    payloadParsed := none
    bodyParsed := none
    frameUrl := some "http://s.com/a" }

def st9 : ScoutState := { initState exCfg with visited_urls := ["http://s.com/a"] }

def st9q : ScoutState := { st9 with url_queue := [("http://s.com/a", 1)] }

/-! ### Theorems -/

mutual

theorem buildStructureTree_eq_aux (t : DomNode) (d : Nat) :
    buildStructureTree t d = buildAux (16 - d) t := by
  cases t with
  | text s => cases h : 16 - d <;> rfl
  | element tag attrs children =>
    by_cases h : d > 15
    · have h0 : 16 - d = 0 := by omega
      simp [buildStructureTree, h, h0, buildAux]
    · have h1 : 16 - d = (16 - (d + 1)) + 1 := by omega
      rw [h1]
      simp [buildStructureTree, h, buildAux, buildChildrenSig_eq_aux children (d + 1)]

theorem buildChildrenSig_eq_aux (cs : List DomNode) (d : Nat) :
    buildChildrenSig cs d = concatMapStr (buildAux (16 - d)) cs := by
  cases cs with
  | nil => rfl
  | cons c cs' =>
    simp [buildChildrenSig, concatMapStr, buildStructureTree_eq_aux c d,
      buildChildrenSig_eq_aux cs' d]

end

theorem projAux_element_banned (fuel : Nat) (tag : String) (attrs : List (String × String))
    (cs : List DomNode) (p : ProjTree) (h : projAux fuel (.element tag attrs cs) = some p) :
    bannedTagP p = strippedTags.contains tag := by
  cases fuel with
  | zero => simp [projAux] at h
  | succ fuel =>
    simp only [projAux] at h
    rw [← Option.some_inj.mp h]
    rfl

/-- The serialization of the stripped tree is a function of the structural
projection of the unstripped tree. -/
theorem buildAux_remove_eq_proj : ∀ (fuel : Nat) (t : DomNode),
    buildAux fuel (removeNonStructural t) = projBuildOpt ((projAux fuel t).map projRemove) := by
  intro fuel
  induction fuel with
  | zero =>
    intro t
    cases t with
    | text s => rfl
    | element tag attrs cs => simp [removeNonStructural, buildAux, projAux, projBuildOpt]
  | succ fuel ih =>
    intro t
    cases t with
    | text s => rfl
    | element tag attrs cs =>
      have hlist : ∀ ds : List DomNode,
          concatMapStr (buildAux fuel) (removeNSList ds) =
            buildProjList (projRemoveList (ds.filterMap (projAux fuel))) := by
        intro ds
        induction ds with
        | nil => rfl
        | cons c ds' ihd =>
          cases c with
          | text s =>
            simpa [removeNSList, isBannedNode, removeNonStructural, buildAux,
              projAux, concatMapStr] using ihd
          | element tag1 attrs1 cs1 =>
            by_cases hb : tag1 ∈ strippedTags
            · have hskip : ∀ p, projAux fuel (.element tag1 attrs1 cs1) = some p →
                  bannedTagP p = true := by
                intro p hp
                rw [projAux_element_banned fuel tag1 attrs1 cs1 p hp]
                simpa using hb
              cases hp : projAux fuel (.element tag1 attrs1 cs1) with
              | none => simpa [removeNSList, isBannedNode, hb, hp] using ihd
              | some p =>
                simpa [removeNSList, isBannedNode, hb, hp, projRemoveList,
                  hskip p hp] using ihd
            · have hc := ih (.element tag1 attrs1 cs1)
              cases hp : projAux fuel (.element tag1 attrs1 cs1) with
              | none =>
                rw [hp] at hc
                simp only [Option.map_none, projBuildOpt] at hc
                simpa [removeNSList, isBannedNode, hb, hp, concatMapStr, hc] using ihd
              | some p =>
                have hnb : bannedTagP p = false := by
                  rw [projAux_element_banned fuel tag1 attrs1 cs1 p hp]
                  simpa using hb
                rw [hp] at hc
                simp only [Option.map_some, projBuildOpt] at hc
                simp [removeNSList, isBannedNode, hb, hp, concatMapStr, hc,
                  projRemoveList, hnb, buildProjList, ihd, String.append_assoc]
      simp [removeNonStructural, buildAux, projAux, projBuildOpt, buildFromProj,
        projRemove, hlist cs]

/-- Claim C1: for every two HTML documents whose DOM trees have identical tag
names, identical filtered-and-sorted class tokens (lowercase alphabetic with
internal hyphens, length > 3), identical role attributes, and identical type
attributes on input elements, at every node up to the recursion depth bound of
15, the fingerprint function returns the same digest for both documents,
regardless of their text content, of attribute values outside the kept set,
and of attribute ordering in the source markup. -/
theorem C1_fingerprint_determinism
    (parse : String → Option DomNode) (htmlA htmlB : String) (ta tb : DomNode)
    (hA : parse htmlA = some ta) (hB : parse htmlB = some tb)
    (hproj : structuralProjection ta = structuralProjection tb) :
    generate_structural_hash parse htmlA = generate_structural_hash parse htmlB := by
  have key : ∀ t : DomNode, buildStructureTree (removeNonStructural t) 0 =
      projBuildOpt ((structuralProjection t).map projRemove) := by
    intro t
    rw [buildStructureTree_eq_aux (removeNonStructural t) 0]
    exact buildAux_remove_eq_proj 16 t
  unfold generate_structural_hash
  rw [hA, hB]
  simp only [key ta, key tb, hproj]

/-- Witness for C1 at a concrete pair of documents. -/
theorem C1_fingerprint_determinism_witness :
    generate_structural_hash parseTest "htmlA" = generate_structural_hash parseTest "htmlB" :=
  C1_fingerprint_determinism parseTest "htmlA" "htmlB" docA docB rfl rfl rfl

/-- Claim C8: for every HTML input string, if parsing the HTML into a tree
fails for any reason, the fingerprint function does not raise: it falls back
to returning the cryptographic hash of the raw HTML bytes. -/
theorem C8_parse_failure_fallback
    (parse : String → Option DomNode) (html : String) (hfail : parse html = none) :
    generate_structural_hash parse html = sha256hex html := by
  unfold generate_structural_hash
  rw [hfail]

/-- Witness for C8: a parser that always fails, applied to a concrete page. -/
theorem C8_parse_failure_fallback_witness :
    generate_structural_hash (fun _ => none) "<div>broken" = sha256hex "<div>broken" :=
  C8_parse_failure_fallback (fun _ => none) "<div>broken" rfl

/-! ### Basic lemmas about the set and dict models -/

theorem mem_addUrl_self (u : String) (l : List String) : u ∈ addUrl u l := by
  unfold addUrl
  split <;> simp_all

theorem mem_addUrl_of_mem {x u : String} {l : List String} (h : x ∈ l) : x ∈ addUrl u l := by
  unfold addUrl
  split <;> simp_all

theorem lookupKey_append_of_none {β : Type _} (k : String) (l1 l2 : List (String × β))
    (h : lookupKey k l1 = none) : lookupKey k (l1 ++ l2) = lookupKey k l2 := by
  induction l1 with
  | nil => rfl
  | cons kv rest ih =>
    obtain ⟨k1, v⟩ := kv
    by_cases hk : k1 = k
    · simp [lookupKey, hk] at h
    · simp [lookupKey, hk] at h ⊢
      exact ih h

theorem lookupKey_updateFirst {α : Type _} (k : String) (f : α → α) (l : List (String × α)) :
    lookupKey k (updateFirst k f l) = (lookupKey k l).map f := by
  induction l with
  | nil => rfl
  | cons kv rest ih =>
    obtain ⟨k1, v⟩ := kv
    by_cases hk : k1 = k
    · simp [updateFirst, hk, lookupKey]
    · simp [updateFirst, hk, lookupKey]
      exact ih

theorem length_updateFirst {α : Type _} (k : String) (f : α → α) (l : List (String × α)) :
    (updateFirst k f l).length = l.length := by
  induction l with
  | nil => rfl
  | cons kv rest ih =>
    obtain ⟨k1, v⟩ := kv
    by_cases hk : k1 = k <;> simp [updateFirst, hk, ih]

theorem mem_updateFirst {α : Type _} {k : String} {f : α → α} {l : List (String × α)}
    {kc : String × α} (h : kc ∈ updateFirst k f l) :
    kc ∈ l ∨ ∃ v, (kc.1, v) ∈ l ∧ kc.2 = f v := by
  induction l with
  | nil => simp [updateFirst] at h
  | cons kv rest ih =>
    obtain ⟨k1, v⟩ := kv
    by_cases hk : k1 = k
    · simp [updateFirst, hk] at h
      rcases h with h | h
      · right
        exact ⟨v, by simp [h, hk], by simp [h]⟩
      · left
        simp [h]
    · simp [updateFirst, hk] at h
      rcases h with h | h
      · left
        simp [h]
      · rcases ih h with h2 | ⟨w, hw, hkc⟩
        · left
          simp [h2]
        · right
          exact ⟨w, by simp [hw], hkc⟩

theorem lookupKey_removeKey_self {β : Type _} (k : String) (l : List (String × β)) :
    lookupKey k (removeKey k l) = none := by
  induction l with
  | nil => rfl
  | cons kv rest ih =>
    obtain ⟨k1, v⟩ := kv
    by_cases hk : k1 = k
    · simpa [removeKey, hk] using ih
    · simpa [removeKey, hk, lookupKey, bne_iff_ne] using ih

theorem sumClusterTotals_append (l1 l2 : List (String × PageCluster)) :
    sumClusterTotals (l1 ++ l2) = sumClusterTotals l1 + sumClusterTotals l2 := by
  simp [sumClusterTotals]

theorem sumClusterTotals_cons (kc : String × PageCluster) (l : List (String × PageCluster)) :
    sumClusterTotals (kc :: l) = kc.2.total_pages_in_cluster + sumClusterTotals l := by
  simp [sumClusterTotals]

theorem bumpCluster_total (url : String) (c : PageCluster) :
    (bumpCluster url c).total_pages_in_cluster = c.total_pages_in_cluster + 1 := by
  unfold bumpCluster
  split <;> rfl

theorem bumpCluster_intercepts (url : String) (c : PageCluster) :
    (bumpCluster url c).network_intercepts = c.network_intercepts := by
  unfold bumpCluster
  split <;> rfl

theorem bumpCluster_samples_le (url : String) (c : PageCluster)
    (h : c.sample_urls.length ≤ 5) : (bumpCluster url c).sample_urls.length ≤ 5 := by
  unfold bumpCluster
  split
  · next hlt => simp only [PageCluster.mk.injEq] at hlt ⊢; simp; omega
  · simpa using h

theorem sumClusterTotals_updateFirst_const (k : String) (f : PageCluster → PageCluster)
    (l : List (String × PageCluster))
    (hf : ∀ c, (f c).total_pages_in_cluster = c.total_pages_in_cluster) :
    sumClusterTotals (updateFirst k f l) = sumClusterTotals l := by
  induction l with
  | nil => rfl
  | cons kv rest ih =>
    obtain ⟨k1, v⟩ := kv
    by_cases hk : k1 = k <;>
      simp [updateFirst, hk, sumClusterTotals_cons, ih, hf]

theorem sumClusterTotals_updateFirst_succ (k : String) (f : PageCluster → PageCluster)
    (l : List (String × PageCluster)) (v : PageCluster)
    (hv : lookupKey k l = some v)
    (hf : ∀ c, (f c).total_pages_in_cluster = c.total_pages_in_cluster + 1) :
    sumClusterTotals (updateFirst k f l) = sumClusterTotals l + 1 := by
  induction l with
  | nil => simp [lookupKey] at hv
  | cons kv rest ih =>
    obtain ⟨k1, w⟩ := kv
    by_cases hk : k1 = k
    · simp [updateFirst, hk, sumClusterTotals_cons, hf]
      omega
    · simp [lookupKey, hk] at hv
      simp [updateFirst, hk, sumClusterTotals_cons, ih hv]
      omega

/-! ### Field-projection lemmas for the crawl stages -/

@[simp] theorem clusterResolve_pages (cfg : ScoutConfig) (st : ScoutState) (url html h : String) :
    (clusterResolve cfg st url html h).pages_crawled = st.pages_crawled := by
  unfold clusterResolve
  cases lookupKey h st.clusters <;> rfl

@[simp] theorem clusterResolve_visited (cfg : ScoutConfig) (st : ScoutState) (url html h : String) :
    (clusterResolve cfg st url html h).visited_urls = st.visited_urls := by
  unfold clusterResolve
  cases lookupKey h st.clusters <;> rfl

@[simp] theorem clusterResolve_logs (cfg : ScoutConfig) (st : ScoutState) (url html h : String) :
    (clusterResolve cfg st url html h).network_logs = st.network_logs := by
  unfold clusterResolve
  cases lookupKey h st.clusters <;> rfl

@[simp] theorem clusterResolve_queue (cfg : ScoutConfig) (st : ScoutState) (url html h : String) :
    (clusterResolve cfg st url html h).url_queue = st.url_queue := by
  unfold clusterResolve
  cases lookupKey h st.clusters <;> rfl

@[simp] theorem drainFor_pages (st : ScoutState) (url h : String) :
    (drainFor st url h).pages_crawled = st.pages_crawled := by
  unfold drainFor
  cases lookupKey url st.network_logs <;> rfl

@[simp] theorem drainFor_visited (st : ScoutState) (url h : String) :
    (drainFor st url h).visited_urls = st.visited_urls := by
  unfold drainFor
  cases lookupKey url st.network_logs <;> rfl

@[simp] theorem drainFor_skipped (st : ScoutState) (url h : String) :
    (drainFor st url h).pages_skipped_by_clustering = st.pages_skipped_by_clustering := by
  unfold drainFor
  cases lookupKey url st.network_logs <;> rfl

@[simp] theorem drainFor_queue (st : ScoutState) (url h : String) :
    (drainFor st url h).url_queue = st.url_queue := by
  unfold drainFor
  cases lookupKey url st.network_logs <;> rfl

@[simp] theorem drainFor_length (st : ScoutState) (url h : String) :
    (drainFor st url h).clusters.length = st.clusters.length := by
  unfold drainFor
  cases lookupKey url st.network_logs with
  | none => rfl
  | some buf => simpa using length_updateFirst h _ st.clusters

@[simp] theorem extract_links_clusters (cfg : ScoutConfig) (st : ScoutState) (u : String)
    (d : Nat) (ls : List String) : (extract_links cfg st u d ls).clusters = st.clusters := rfl

@[simp] theorem extract_links_logs (cfg : ScoutConfig) (st : ScoutState) (u : String)
    (d : Nat) (ls : List String) : (extract_links cfg st u d ls).network_logs = st.network_logs := rfl

@[simp] theorem extract_links_visited (cfg : ScoutConfig) (st : ScoutState) (u : String)
    (d : Nat) (ls : List String) : (extract_links cfg st u d ls).visited_urls = st.visited_urls := rfl

@[simp] theorem extract_links_pages (cfg : ScoutConfig) (st : ScoutState) (u : String)
    (d : Nat) (ls : List String) : (extract_links cfg st u d ls).pages_crawled = st.pages_crawled := rfl

@[simp] theorem extract_links_skipped (cfg : ScoutConfig) (st : ScoutState) (u : String)
    (d : Nat) (ls : List String) :
    (extract_links cfg st u d ls).pages_skipped_by_clustering = st.pages_skipped_by_clustering := rfl

@[simp] theorem nav_links_clusters (cfg : ScoutConfig) (st : ScoutState) (ls : List String) :
    (extract_nav_links cfg st ls).clusters = st.clusters := rfl

@[simp] theorem nav_links_logs (cfg : ScoutConfig) (st : ScoutState) (ls : List String) :
    (extract_nav_links cfg st ls).network_logs = st.network_logs := rfl

@[simp] theorem nav_links_visited (cfg : ScoutConfig) (st : ScoutState) (ls : List String) :
    (extract_nav_links cfg st ls).visited_urls = st.visited_urls := rfl

@[simp] theorem nav_links_pages (cfg : ScoutConfig) (st : ScoutState) (ls : List String) :
    (extract_nav_links cfg st ls).pages_crawled = st.pages_crawled := rfl

@[simp] theorem nav_links_skipped (cfg : ScoutConfig) (st : ScoutState) (ls : List String) :
    (extract_nav_links cfg st ls).pages_skipped_by_clustering = st.pages_skipped_by_clustering := rfl

@[simp] theorem add_priority_clusters (cfg : ScoutConfig) (st : ScoutState) (u : String) :
    (add_priority_url cfg st u).clusters = st.clusters := by
  unfold add_priority_url
  by_cases hm : cfg.urljoin cfg.base_url u ∈ st.visited_urls <;> simp [hm]

@[simp] theorem add_priority_logs (cfg : ScoutConfig) (st : ScoutState) (u : String) :
    (add_priority_url cfg st u).network_logs = st.network_logs := by
  unfold add_priority_url
  by_cases hm : cfg.urljoin cfg.base_url u ∈ st.visited_urls <;> simp [hm]

@[simp] theorem add_priority_visited (cfg : ScoutConfig) (st : ScoutState) (u : String) :
    (add_priority_url cfg st u).visited_urls = st.visited_urls := by
  unfold add_priority_url
  by_cases hm : cfg.urljoin cfg.base_url u ∈ st.visited_urls <;> simp [hm]

@[simp] theorem add_priority_pages (cfg : ScoutConfig) (st : ScoutState) (u : String) :
    (add_priority_url cfg st u).pages_crawled = st.pages_crawled := by
  unfold add_priority_url
  by_cases hm : cfg.urljoin cfg.base_url u ∈ st.visited_urls <;> simp [hm]

@[simp] theorem add_priority_skipped (cfg : ScoutConfig) (st : ScoutState) (u : String) :
    (add_priority_url cfg st u).pages_skipped_by_clustering = st.pages_skipped_by_clustering := by
  unfold add_priority_url
  by_cases hm : cfg.urljoin cfg.base_url u ∈ st.visited_urls <;> simp [hm]

@[simp] theorem handle_response_clusters (st : ScoutState) (r : ResponseEvent) :
    (handle_response st r).clusters = st.clusters := by
  unfold handle_response
  rcases builtIntercept r with _ | ⟨k, i⟩ <;> rfl

@[simp] theorem handle_response_visited (st : ScoutState) (r : ResponseEvent) :
    (handle_response st r).visited_urls = st.visited_urls := by
  unfold handle_response
  rcases builtIntercept r with _ | ⟨k, i⟩ <;> rfl

@[simp] theorem handle_response_pages (st : ScoutState) (r : ResponseEvent) :
    (handle_response st r).pages_crawled = st.pages_crawled := by
  unfold handle_response
  rcases builtIntercept r with _ | ⟨k, i⟩ <;> rfl

@[simp] theorem handle_response_skipped (st : ScoutState) (r : ResponseEvent) :
    (handle_response st r).pages_skipped_by_clustering = st.pages_skipped_by_clustering := by
  unfold handle_response
  rcases builtIntercept r with _ | ⟨k, i⟩ <;> rfl

@[simp] theorem handle_response_queue (st : ScoutState) (r : ResponseEvent) :
    (handle_response st r).url_queue = st.url_queue := by
  unfold handle_response
  rcases builtIntercept r with _ | ⟨k, i⟩ <;> rfl

/-! ### Invariant: the cluster registry counts every successful visit (C2) -/

theorem clusterResolve_sum (cfg : ScoutConfig) (st : ScoutState) (url html h : String) :
    sumClusterTotals (clusterResolve cfg st url html h).clusters =
      sumClusterTotals st.clusters + 1 := by
  unfold clusterResolve
  cases hc : lookupKey h st.clusters with
  | none => simp [sumClusterTotals_append, sumClusterTotals, createCluster]
  | some v => exact sumClusterTotals_updateFirst_succ h _ _ v hc (bumpCluster_total url)

theorem drainFor_sum (st : ScoutState) (url h : String) :
    sumClusterTotals (drainFor st url h).clusters = sumClusterTotals st.clusters := by
  unfold drainFor
  cases lookupKey url st.network_logs with
  | none => rfl
  | some buf => exact sumClusterTotals_updateFirst_const _ _ _ (fun c => rfl)

theorem successVisit_dedup (cfg : ScoutConfig) (st : ScoutState) (url : String) (depth : Nat)
    (html : String) (links : List String)
    (h : sumClusterTotals st.clusters = st.pages_crawled) :
    sumClusterTotals (successVisit cfg st url depth html links).clusters =
      (successVisit cfg st url depth html links).pages_crawled := by
  unfold successVisit
  split <;> simp [markVisited, drainFor_sum, clusterResolve_sum, h]

theorem process_page_dedup (cfg : ScoutConfig) (st : ScoutState) (url : String) (depth : Nat)
    (o : Outcome) (h : sumClusterTotals st.clusters = st.pages_crawled) :
    sumClusterTotals (process_page cfg st url depth o).clusters =
      (process_page cfg st url depth o).pages_crawled := by
  cases o with
  | navFail => exact h
  | loaded finalUrl content links =>
    simp only [process_page]
    split
    · exact h
    · cases content with
      | none => exact h
      | some html => exact successVisit_dedup cfg st url depth html links h

theorem crawlStep_dedup (cfg : ScoutConfig) (st : ScoutState) (e : Event)
    (h : sumClusterTotals st.clusters = st.pages_crawled) :
    sumClusterTotals (crawlStep cfg st e).1.clusters = (crawlStep cfg st e).1.pages_crawled := by
  cases e with
  | navScan links => simpa [crawlStep] using h
  | addPriority u => simpa [crawlStep] using h
  | response r => simpa [crawlStep] using h
  | visit o =>
    simp only [crawlStep]
    split
    · split
      · exact h
      · split
        · exact h
        · exact process_page_dedup cfg _ _ _ o h
    · exact h

theorem runTrace_preserve (cfg : ScoutConfig) (P : ScoutState → Prop)
    (hstep : ∀ st e, P st → P (crawlStep cfg st e).1) :
    ∀ (tr : List Event) (st : ScoutState), P st → P (runTrace cfg st tr) := by
  intro tr
  induction tr with
  | nil => exact fun st h => h
  | cons e tr ih => exact fun st h => ih _ (hstep st e h)

/-- Claim C2: for every sequence of page visits during one crawl run, the sum
of `total_pages_in_cluster` over all `PageCluster` records in the registry
equals the number of successfully visited pages (`pages_crawled`): each
successful visit either creates a new cluster with count 1 or increments an
existing counter by exactly 1, and `pages_crawled` is incremented by exactly
1 on the same visit. -/
theorem C2_dedup_invariant (cfg : ScoutConfig) (tr : List Event) :
    sumClusterTotals (runTrace cfg (initState cfg) tr).clusters =
      (runTrace cfg (initState cfg) tr).pages_crawled :=
  runTrace_preserve cfg (fun st => sumClusterTotals st.clusters = st.pages_crawled)
    (fun st e h => crawlStep_dedup cfg st e h) tr (initState cfg) rfl

/-! ### Invariant: skip counter + cluster count = pages crawled (C10) -/

theorem clusterResolve_len_skip (cfg : ScoutConfig) (st : ScoutState) (url html h : String) :
    (clusterResolve cfg st url html h).clusters.length +
        (clusterResolve cfg st url html h).pages_skipped_by_clustering =
      st.clusters.length + st.pages_skipped_by_clustering + 1 := by
  unfold clusterResolve
  cases lookupKey h st.clusters with
  | none => simp; omega
  | some v => simp [length_updateFirst]; omega

theorem successVisit_c10 (cfg : ScoutConfig) (st : ScoutState) (url : String) (depth : Nat)
    (html : String) (links : List String)
    (h : st.pages_crawled = st.clusters.length + st.pages_skipped_by_clustering) :
    (successVisit cfg st url depth html links).pages_crawled =
      (successVisit cfg st url depth html links).clusters.length +
        (successVisit cfg st url depth html links).pages_skipped_by_clustering := by
  have hc := clusterResolve_len_skip cfg st url html (generate_structural_hash cfg.parse html)
  unfold successVisit
  split <;> simp [markVisited] <;> omega

theorem process_page_c10 (cfg : ScoutConfig) (st : ScoutState) (url : String) (depth : Nat)
    (o : Outcome) (h : st.pages_crawled = st.clusters.length + st.pages_skipped_by_clustering) :
    (process_page cfg st url depth o).pages_crawled =
      (process_page cfg st url depth o).clusters.length +
        (process_page cfg st url depth o).pages_skipped_by_clustering := by
  cases o with
  | navFail => exact h
  | loaded finalUrl content links =>
    simp only [process_page]
    split
    · exact h
    · cases content with
      | none => exact h
      | some html => exact successVisit_c10 cfg st url depth html links h

theorem crawlStep_c10 (cfg : ScoutConfig) (st : ScoutState) (e : Event)
    (h : st.pages_crawled = st.clusters.length + st.pages_skipped_by_clustering) :
    (crawlStep cfg st e).1.pages_crawled =
      (crawlStep cfg st e).1.clusters.length +
        (crawlStep cfg st e).1.pages_skipped_by_clustering := by
  cases e with
  | navScan links => simpa [crawlStep] using h
  | addPriority u => simpa [crawlStep] using h
  | response r => simpa [crawlStep] using h
  | visit o =>
    simp only [crawlStep]
    split
    · split
      · exact h
      · split
        · exact h
        · exact process_page_c10 cfg _ _ _ o h
    · exact h

/-- Claim C10: at every point in a crawl run, `pages_skipped_by_clustering`
equals `pages_crawled` minus the number of clusters in the registry: every
successful visit either creates a new cluster (leaving the skip counter
unchanged) or increments the skip counter by exactly 1, so the
`clustering_efficiency` statistic is always derived from a consistent pair of
counters. -/
theorem C10_skip_counter_consistency (cfg : ScoutConfig) (tr : List Event) :
    (runTrace cfg (initState cfg) tr).pages_skipped_by_clustering =
      (runTrace cfg (initState cfg) tr).pages_crawled -
        (runTrace cfg (initState cfg) tr).clusters.length ∧
    (runTrace cfg (initState cfg) tr).clusters.length +
        (runTrace cfg (initState cfg) tr).pages_skipped_by_clustering =
      (runTrace cfg (initState cfg) tr).pages_crawled := by
  have hinv := runTrace_preserve cfg
    (fun st => st.pages_crawled = st.clusters.length + st.pages_skipped_by_clustering)
    (fun st e h => crawlStep_c10 cfg st e h) tr (initState cfg) rfl
  omega

/-! ### Invariant: the sample-URL list is capped at 5 (C4) -/

theorem clusterResolve_samples (cfg : ScoutConfig) (st : ScoutState) (url html h : String)
    (hs : ∀ kc ∈ st.clusters, kc.2.sample_urls.length ≤ 5) :
    ∀ kc ∈ (clusterResolve cfg st url html h).clusters, kc.2.sample_urls.length ≤ 5 := by
  unfold clusterResolve
  cases lookupKey h st.clusters with
  | none =>
    intro kc hkc
    simp only [List.mem_append, List.mem_singleton] at hkc
    rcases hkc with hkc | hkc
    · exact hs kc hkc
    · simp [hkc, createCluster]
  | some v =>
    intro kc hkc
    rcases mem_updateFirst hkc with hold | ⟨w, hw, hkc2⟩
    · exact hs kc hold
    · rw [hkc2]
      exact bumpCluster_samples_le url w (hs (kc.1, w) hw)

theorem drainFor_samples (st : ScoutState) (url h : String)
    (hs : ∀ kc ∈ st.clusters, kc.2.sample_urls.length ≤ 5) :
    ∀ kc ∈ (drainFor st url h).clusters, kc.2.sample_urls.length ≤ 5 := by
  unfold drainFor
  cases lookupKey url st.network_logs with
  | none => exact hs
  | some buf =>
    intro kc hkc
    rcases mem_updateFirst hkc with hold | ⟨w, hw, hkc2⟩
    · exact hs kc hold
    · rw [hkc2]
      exact hs (kc.1, w) hw

theorem successVisit_samples (cfg : ScoutConfig) (st : ScoutState) (url : String) (depth : Nat)
    (html : String) (links : List String)
    (hs : ∀ kc ∈ st.clusters, kc.2.sample_urls.length ≤ 5) :
    ∀ kc ∈ (successVisit cfg st url depth html links).clusters,
      kc.2.sample_urls.length ≤ 5 := by
  have key := drainFor_samples
    (clusterResolve cfg st url html (generate_structural_hash cfg.parse html)) url
    (generate_structural_hash cfg.parse html)
    (clusterResolve_samples cfg st url html (generate_structural_hash cfg.parse html) hs)
  unfold successVisit
  split <;> simpa [markVisited] using key

theorem process_page_samples (cfg : ScoutConfig) (st : ScoutState) (url : String) (depth : Nat)
    (o : Outcome) (hs : ∀ kc ∈ st.clusters, kc.2.sample_urls.length ≤ 5) :
    ∀ kc ∈ (process_page cfg st url depth o).clusters, kc.2.sample_urls.length ≤ 5 := by
  cases o with
  | navFail => exact hs
  | loaded finalUrl content links =>
    simp only [process_page]
    split
    · exact hs
    · cases content with
      | none => exact hs
      | some html => exact successVisit_samples cfg st url depth html links hs

theorem crawlStep_samples (cfg : ScoutConfig) (st : ScoutState) (e : Event)
    (hs : ∀ kc ∈ st.clusters, kc.2.sample_urls.length ≤ 5) :
    ∀ kc ∈ (crawlStep cfg st e).1.clusters, kc.2.sample_urls.length ≤ 5 := by
  cases e with
  | navScan links => simpa [crawlStep] using hs
  | addPriority u => simpa [crawlStep] using hs
  | response r => simpa [crawlStep] using hs
  | visit o =>
    simp only [crawlStep]
    split
    · split
      · exact hs
      · split
        · exact hs
        · exact process_page_samples cfg _ _ _ o hs
    · exact hs

/-- Claim C4: for every `PageCluster` at every point in a crawl, the length of
`sample_urls` is at most 5: a cluster is created with exactly one sample URL,
and on a duplicate sighting the URL is appended only while the list length is
below 5, even after arbitrarily many duplicate visits. -/
theorem C4_sample_cap (cfg : ScoutConfig) (tr : List Event) :
    ∀ kc ∈ (runTrace cfg (initState cfg) tr).clusters, kc.2.sample_urls.length ≤ 5 :=
  runTrace_preserve cfg (fun st => ∀ kc ∈ st.clusters, kc.2.sample_urls.length ≤ 5)
    (fun st e h => crawlStep_samples cfg st e h) tr (initState cfg) (by simp [initState])

/-! ### The pop log: budgets (C3) and revisits (C5) -/

theorem runLog_sound (cfg : ScoutConfig) (P : ScoutState → Prop) (Q : PopRec → Prop)
    (hpres : ∀ st e, P st → P (crawlStep cfg st e).1)
    (hstep : ∀ st e p, P st → (crawlStep cfg st e).2 = some p → Q p) :
    ∀ (tr : List Event) (st : ScoutState), P st → ∀ p ∈ runLog cfg st tr, Q p := by
  intro tr
  induction tr with
  | nil =>
    intro st hP p hp
    simp [runLog] at hp
  | cons e tr ih =>
    intro st hP p hp
    simp only [runLog, List.mem_append] at hp
    rcases hp with hp | hp
    · cases hopt : (crawlStep cfg st e).2 with
      | none => rw [hopt] at hp; simp at hp
      | some q =>
        rw [hopt] at hp
        simp at hp
        rw [hp]
        exact hstep st e q hP hopt
    · exact ih _ (hpres st e hP) p hp

theorem successVisit_pages (cfg : ScoutConfig) (st : ScoutState) (url : String) (depth : Nat)
    (html : String) (links : List String) :
    (successVisit cfg st url depth html links).pages_crawled = st.pages_crawled + 1 := by
  unfold successVisit
  split <;> simp [markVisited]

theorem process_page_pages_le (cfg : ScoutConfig) (st : ScoutState) (url : String) (depth : Nat)
    (o : Outcome) :
    (process_page cfg st url depth o).pages_crawled ≤ st.pages_crawled + 1 := by
  cases o with
  | navFail => exact Nat.le_succ _
  | loaded finalUrl content links =>
    simp only [process_page]
    split
    · exact Nat.le_succ _
    · cases content with
      | none => exact Nat.le_succ _
      | some html => rw [successVisit_pages]

theorem crawlStep_budget (cfg : ScoutConfig) (st : ScoutState) (e : Event)
    (h : st.pages_crawled ≤ cfg.max_pages) :
    (crawlStep cfg st e).1.pages_crawled ≤ cfg.max_pages := by
  cases e with
  | navScan links => simpa [crawlStep] using h
  | addPriority u => simpa [crawlStep] using h
  | response r => simpa [crawlStep] using h
  | visit o =>
    simp only [crawlStep]
    rcases Nat.lt_or_ge st.pages_crawled cfg.max_pages with hlt | hge
    · rw [if_pos hlt]
      split
      · exact h
      · split
        · exact h
        · exact le_trans (process_page_pages_le cfg _ _ _ o) hlt
    · rw [if_neg (Nat.not_lt.mpr hge)]
      exact h

theorem crawlStep_pop_depth (cfg : ScoutConfig) (st : ScoutState) (e : Event) (p : PopRec)
    (hopt : (crawlStep cfg st e).2 = some p) (hproc : p.processed = true) :
    p.depth ≤ cfg.max_depth := by
  cases e with
  | navScan links => simp [crawlStep] at hopt
  | addPriority u => simp [crawlStep] at hopt
  | response r => simp [crawlStep] at hopt
  | visit o =>
    simp only [crawlStep] at hopt
    split at hopt
    · split at hopt
      · simp at hopt
      · split at hopt
        · simp at hopt
          rw [← hopt] at hproc
          simp at hproc
        · next hcond =>
          simp at hopt
          rw [← hopt]
          push_neg at hcond
          simpa using hcond.2
    · simp at hopt

/-- Claim C3: for every crawl run the number of pages crawled never exceeds
`max_pages`, and no frontier entry whose depth exceeds `max_depth` is ever
visited: the loop stops when `pages_crawled` reaches `max_pages` or the queue
is empty, and an entry with `depth > max_depth` is skipped without counting
against the budget. -/
theorem C3_budget_respect :
    (∀ (cfg : ScoutConfig) (tr : List Event),
      (runTrace cfg (initState cfg) tr).pages_crawled ≤ cfg.max_pages) ∧
    (∀ (cfg : ScoutConfig) (tr : List Event) (p : PopRec),
      p ∈ runLog cfg (initState cfg) tr → p.processed = true → p.depth ≤ cfg.max_depth) ∧
    (∀ (cfg : ScoutConfig) (st : ScoutState) (o : Outcome) (url : String) (depth : Nat)
      (rest : List (String × Nat)),
      st.url_queue = (url, depth) :: rest → depth > cfg.max_depth →
      (crawlStep cfg st (.visit o)).1.pages_crawled = st.pages_crawled ∧
      (∀ p, (crawlStep cfg st (.visit o)).2 = some p → p.processed = false)) := by
  refine ⟨?_, ?_, ?_⟩
  · intro cfg tr
    exact runTrace_preserve cfg (fun s => s.pages_crawled ≤ cfg.max_pages)
      (fun st e h => crawlStep_budget cfg st e h) tr (initState cfg) (Nat.zero_le _)
  · intro cfg tr p hp hproc
    exact runLog_sound cfg (fun _ => True) (fun q => q.processed = true → q.depth ≤ cfg.max_depth)
      (fun _ _ _ => trivial) (fun st e q _ hopt => crawlStep_pop_depth cfg st e q hopt)
      tr (initState cfg) trivial p hp hproc
  · intro cfg st o url depth rest hq hd
    simp only [crawlStep, hq]
    rcases Nat.lt_or_ge st.pages_crawled cfg.max_pages with hlt | hge
    · rw [if_pos hlt, if_pos (Or.inr hd)]
      refine ⟨rfl, ?_⟩
      intro p hp
      simp at hp
      rw [← hp]
    · rw [if_neg (Nat.not_lt.mpr hge)]
      exact ⟨rfl, by intro p hp; simp at hp⟩

theorem successVisit_visited (cfg : ScoutConfig) (st : ScoutState) (url : String) (depth : Nat)
    (html : String) (links : List String) :
    (successVisit cfg st url depth html links).visited_urls = addUrl url st.visited_urls := by
  unfold successVisit
  split <;> simp [markVisited]

theorem process_page_visited_mono (cfg : ScoutConfig) (st : ScoutState) (url : String)
    (depth : Nat) (o : Outcome) (u : String) (h : u ∈ st.visited_urls) :
    u ∈ (process_page cfg st url depth o).visited_urls := by
  cases o with
  | navFail => exact h
  | loaded finalUrl content links =>
    simp only [process_page]
    split
    · exact h
    · cases content with
      | none => exact h
      | some html =>
        rw [successVisit_visited]
        exact mem_addUrl_of_mem h

theorem crawlStep_visited_mono (cfg : ScoutConfig) (st : ScoutState) (e : Event) (u : String)
    (h : u ∈ st.visited_urls) : u ∈ (crawlStep cfg st e).1.visited_urls := by
  cases e with
  | navScan links => simpa [crawlStep] using h
  | addPriority uu => simpa [crawlStep] using h
  | response r => simpa [crawlStep] using h
  | visit o =>
    simp only [crawlStep]
    split
    · split
      · exact h
      · split
        · exact h
        · exact process_page_visited_mono cfg _ _ _ o u h
    · exact h

theorem crawlStep_pop_visited (cfg : ScoutConfig) (st : ScoutState) (e : Event) (p : PopRec)
    (u : String) (hu : u ∈ st.visited_urls) (hopt : (crawlStep cfg st e).2 = some p)
    (hpu : p.url = u) : p.processed = false := by
  cases e with
  | navScan links => simp [crawlStep] at hopt
  | addPriority uu => simp [crawlStep] at hopt
  | response r => simp [crawlStep] at hopt
  | visit o =>
    simp only [crawlStep] at hopt
    split at hopt
    · split at hopt
      · simp at hopt
      · split at hopt
        · simp at hopt
          rw [← hopt]
        · next hcond =>
          simp at hopt
          rw [← hopt] at hpu
          simp at hpu
          exact absurd (Or.inl (hpu ▸ hu)) hcond
    · simp at hopt

/-- Amended claim C5: a URL that is a member of the VisitedSet can be popped
from the frontier again (the queue may hold stale duplicates), but such a pop
is always skipped: the URL is never processed (visited) again. -/
theorem C5_no_reprocess_amended (cfg : ScoutConfig) (st : ScoutState) (tr : List Event)
    (u : String) (hu : u ∈ st.visited_urls) :
    ∀ p ∈ runLog cfg st tr, p.url = u → p.processed = false := by
  intro p hp hpu
  exact runLog_sound cfg (fun s => u ∈ s.visited_urls)
    (fun q => q.url = u → q.processed = false)
    (fun st e h => crawlStep_visited_mono cfg st e u h)
    (fun st e q hP hopt hqu => crawlStep_pop_visited cfg st e q u hP hopt hqu)
    tr st hu p hp hpu

/-! ### Fan-out of enqueued links (C6) -/

theorem linkEntry_depth (cfg : ScoutConfig) (vis : List String) (cur link : String) (d : Nat)
    (e : String × Nat) (h : linkEntry cfg vis cur d link = some e) : e.2 = d + 1 := by
  unfold linkEntry at h
  split at h
  · split at h
    · simp at h
    · simp at h
      rw [← h]
  · simp at h

theorem successVisit_queue (cfg : ScoutConfig) (st : ScoutState) (url : String) (depth : Nat)
    (html : String) (links : List String) :
    ∃ ext, (successVisit cfg st url depth html links).url_queue = st.url_queue ++ ext ∧
      ∀ e ∈ ext, e.2 = depth + 1 := by
  unfold successVisit
  split
  · refine ⟨links.filterMap (linkEntry cfg
      (markVisited (drainFor (clusterResolve cfg st url html
        (generate_structural_hash cfg.parse html)) url
        (generate_structural_hash cfg.parse html)) url).visited_urls url depth), ?_, ?_⟩
    · simp [extract_links, markVisited]
    · intro e he
      rcases List.mem_filterMap.mp he with ⟨a, _, ha⟩
      exact linkEntry_depth cfg _ url a depth e ha
  · exact ⟨[], by simp [markVisited], by simp⟩

theorem process_page_queue (cfg : ScoutConfig) (st : ScoutState) (url : String) (depth : Nat)
    (o : Outcome) :
    ∃ ext, (process_page cfg st url depth o).url_queue = st.url_queue ++ ext ∧
      ∀ e ∈ ext, e.2 = depth + 1 := by
  cases o with
  | navFail => exact ⟨[], by simp [process_page], by simp⟩
  | loaded finalUrl content links =>
    simp only [process_page]
    split
    · exact ⟨[], by simp, by simp⟩
    · cases content with
      | none => exact ⟨[], by simp, by simp⟩
      | some html => exact successVisit_queue cfg st url depth html links

theorem foldl_priority_front (vis : List String) (ls : List String) (q0 : List (String × Nat)) :
    ls.foldl (fun q l => if l ∈ vis then q else (l, 0) :: q) q0 =
      ((ls.filter (fun l => decide (¬ l ∈ vis))).reverse.map (fun l => (l, 0))) ++ q0 := by
  induction ls generalizing q0 with
  | nil => rfl
  | cons l ls ih =>
    by_cases hm : l ∈ vis
    · simp [hm, ih]
    · simp [hm, ih]

theorem extract_nav_links_queue (cfg : ScoutConfig) (st : ScoutState) (navLinks : List String) :
    ∃ pri reg, (extract_nav_links cfg st navLinks).url_queue = pri ++ st.url_queue ++ reg ∧
      reg.length ≤ 10 ∧ (∀ e ∈ reg, e.2 = 1) ∧ (∀ e ∈ pri, e.2 = 0) := by
  refine ⟨((((navCleanLinks cfg navLinks).filter (fun b => b.1)).map (fun b => b.2)).filter
      (fun l => decide (¬ l ∈ st.visited_urls))).reverse.map (fun l => (l, 0)),
    (((((navCleanLinks cfg navLinks).filter (fun b => !b.1)).map (fun b => b.2)).take 10).filterMap
      (fun l => if l ∈ st.visited_urls then none else some (l, 1))), ?_, ?_, ?_, ?_⟩
  · simp only [extract_nav_links]
    rw [foldl_priority_front]
  · exact le_trans (List.length_filterMap_le _ _) (List.length_take_le _ _)
  · intro e he
    rcases List.mem_filterMap.mp he with ⟨a, _, ha⟩
    split at ha
    · simp at ha
    · simp at ha
      rw [← ha]
  · intro e he
    rcases List.mem_map.mp he with ⟨a, _, ha⟩
    rw [← ha]

/-! ### The intercept buffer: drain-once and late-drop (C9) -/

theorem mem_allIntercepts {i : NetworkIntercept} {l : List (String × PageCluster)} :
    i ∈ allIntercepts l ↔ ∃ kc ∈ l, i ∈ kc.2.network_intercepts := by
  simp only [allIntercepts, List.mem_flatten, List.mem_map]
  constructor
  · rintro ⟨l1, ⟨⟨a, b⟩, hab, hbl⟩, hil⟩
    exact ⟨(a, b), hab, by rw [← hbl] at hil; exact hil⟩
  · rintro ⟨⟨a, b⟩, hab, hib⟩
    exact ⟨b.network_intercepts, ⟨(a, b), hab, rfl⟩, hib⟩

theorem mem_bufferPool {i : NetworkIntercept} {v : List String}
    {logs : List (String × List NetworkIntercept)} :
    i ∈ bufferPool v logs ↔ ∃ kl ∈ logs, ¬ kl.1 ∈ v ∧ i ∈ kl.2 := by
  simp [bufferPool, List.mem_filter]
  tauto

theorem lookupKey_mem {β : Type _} {k : String} {logs : List (String × β)} {buf : β}
    (h : lookupKey k logs = some buf) : (k, buf) ∈ logs := by
  induction logs with
  | nil => simp [lookupKey] at h
  | cons kl rest ih =>
    obtain ⟨k1, l1⟩ := kl
    by_cases hk : k1 = k
    · simp [lookupKey, hk] at h
      simp [hk, h]
    · simp [lookupKey, hk] at h
      simp [ih h]

theorem mem_appendLog {kl : String × List NetworkIntercept} {k : String} {j : NetworkIntercept}
    {logs : List (String × List NetworkIntercept)} (h : kl ∈ appendLog k j logs) :
    kl ∈ logs ∨ (∃ l0, (k, l0) ∈ logs ∧ kl = (k, l0 ++ [j])) ∨ kl = (k, [j]) := by
  induction logs with
  | nil =>
    simp [appendLog] at h
    simp [h]
  | cons kl1 rest ih =>
    obtain ⟨k1, l1⟩ := kl1
    by_cases hk : k1 = k
    · simp [appendLog, hk] at h
      rcases h with h | h
      · exact Or.inr (Or.inl ⟨l1, by simp [hk], by simp [h]⟩)
      · exact Or.inl (by simp [h])
    · simp [appendLog, hk] at h
      rcases h with h | h
      · exact Or.inl (by simp [h])
      · rcases ih h with h2 | ⟨l0, hl0, hkl⟩ | h2
        · exact Or.inl (by simp [h2])
        · exact Or.inr (Or.inl ⟨l0, by simp [hl0], hkl⟩)
        · exact Or.inr (Or.inr h2)

theorem mem_removeKey {β : Type _} {kl : String × β} {k : String} {logs : List (String × β)}
    (h : kl ∈ removeKey k logs) : kl ∈ logs :=
  (List.mem_filter.mp h).1

theorem bufferPool_addUrl {i : NetworkIntercept} {u : String} {v : List String}
    {logs : List (String × List NetworkIntercept)}
    (h : i ∈ bufferPool (addUrl u v) logs) : i ∈ bufferPool v logs := by
  rcases mem_bufferPool.mp h with ⟨kl, hkl, hnv, hi⟩
  exact mem_bufferPool.mpr ⟨kl, hkl, fun hm => hnv (mem_addUrl_of_mem hm), hi⟩

theorem bufferPool_removeKey {i : NetworkIntercept} {k : String} {v : List String}
    {logs : List (String × List NetworkIntercept)}
    (h : i ∈ bufferPool v (removeKey k logs)) : i ∈ bufferPool v logs := by
  rcases mem_bufferPool.mp h with ⟨kl, hkl, hnv, hi⟩
  exact mem_bufferPool.mpr ⟨kl, mem_removeKey hkl, hnv, hi⟩

theorem bufferPool_appendLog {i j : NetworkIntercept} {k : String} {v : List String}
    {logs : List (String × List NetworkIntercept)}
    (h : i ∈ bufferPool v (appendLog k j logs)) :
    i ∈ bufferPool v logs ∨ (i = j ∧ ¬ k ∈ v) := by
  rcases mem_bufferPool.mp h with ⟨kl, hkl, hnv, hi⟩
  rcases mem_appendLog hkl with hold | ⟨l0, hl0, hkl2⟩ | hkl2
  · exact Or.inl (mem_bufferPool.mpr ⟨kl, hold, hnv, hi⟩)
  · rw [hkl2] at hnv hi
    simp at hnv hi
    rcases hi with hi | hi
    · exact Or.inl (mem_bufferPool.mpr ⟨(k, l0), hl0, by simpa using hnv, hi⟩)
    · exact Or.inr ⟨hi, hnv⟩
  · rw [hkl2] at hnv hi
    simp at hnv hi
    exact Or.inr ⟨hi, hnv⟩

theorem bufferPool_of_lookup {i : NetworkIntercept} {k : String} {v : List String}
    {logs : List (String × List NetworkIntercept)} {buf : List NetworkIntercept}
    (hl : lookupKey k logs = some buf) (hnv : ¬ k ∈ v) (hi : i ∈ buf) :
    i ∈ bufferPool v logs :=
  mem_bufferPool.mpr ⟨(k, buf), lookupKey_mem hl, hnv, hi⟩

theorem allIntercepts_clusterResolve {i : NetworkIntercept} (cfg : ScoutConfig)
    (st : ScoutState) (url html h : String)
    (hi : i ∈ allIntercepts (clusterResolve cfg st url html h).clusters) :
    i ∈ allIntercepts st.clusters := by
  unfold clusterResolve at hi
  cases hc : lookupKey h st.clusters with
  | none =>
    rw [hc] at hi
    simp only [allIntercepts, List.map_append, List.flatten_append] at hi
    rcases List.mem_append.mp hi with hi | hi
    · exact hi
    · simp [createCluster] at hi
  | some v =>
    rw [hc] at hi
    rcases mem_allIntercepts.mp hi with ⟨kc, hkc, hin⟩
    rcases mem_updateFirst hkc with hold | ⟨w, hw, hkc2⟩
    · exact mem_allIntercepts.mpr ⟨kc, hold, hin⟩
    · rw [hkc2, bumpCluster_intercepts] at hin
      exact mem_allIntercepts.mpr ⟨(kc.1, w), hw, hin⟩

theorem allIntercepts_drain {i : NetworkIntercept} {h : String}
    {buf : List NetworkIntercept} {l : List (String × PageCluster)}
    (hi : i ∈ allIntercepts (updateFirst h
      (fun c => { c with network_intercepts := c.network_intercepts ++ buf }) l)) :
    i ∈ allIntercepts l ∨ i ∈ buf := by
  rcases mem_allIntercepts.mp hi with ⟨kc, hkc, hin⟩
  rcases mem_updateFirst hkc with hold | ⟨w, hw, hkc2⟩
  · exact Or.inl (mem_allIntercepts.mpr ⟨kc, hold, hin⟩)
  · rw [hkc2] at hin
    simp at hin
    rcases hin with hin | hin
    · exact Or.inl (mem_allIntercepts.mpr ⟨(kc.1, w), hw, hin⟩)
    · exact Or.inr hin

theorem successVisit_pool (cfg : ScoutConfig) (st : ScoutState) (url : String) (depth : Nat)
    (html : String) (links : List String) (i : NetworkIntercept)
    (hnv : ¬ url ∈ st.visited_urls) (hi : ¬ i ∈ livePool st) :
    ¬ i ∈ livePool (successVisit cfg st url depth html links) := by
  intro hmem
  apply hi
  have hmem2 : i ∈ livePool (markVisited (drainFor (clusterResolve cfg st url html
      (generate_structural_hash cfg.parse html)) url
      (generate_structural_hash cfg.parse html)) url) := by
    unfold successVisit at hmem
    split at hmem
    · simpa [livePool, allClusterIntercepts, extract_links] using
        (by simpa [livePool, allClusterIntercepts] using hmem :
          i ∈ allIntercepts (markVisited (drainFor (clusterResolve cfg st url html
            (generate_structural_hash cfg.parse html)) url
            (generate_structural_hash cfg.parse html)) url).clusters ∨
          i ∈ bufferPool (markVisited (drainFor (clusterResolve cfg st url html
            (generate_structural_hash cfg.parse html)) url
            (generate_structural_hash cfg.parse html)) url).visited_urls
            (markVisited (drainFor (clusterResolve cfg st url html
              (generate_structural_hash cfg.parse html)) url
              (generate_structural_hash cfg.parse html)) url).network_logs)
    · exact hmem
  clear hmem hi
  rcases List.mem_append.mp hmem2 with hmem3 | hmem3
  · -- in a cluster after the visit
    have hmem4 : i ∈ allIntercepts (drainFor (clusterResolve cfg st url html
        (generate_structural_hash cfg.parse html)) url
        (generate_structural_hash cfg.parse html)).clusters := by
      simpa [allClusterIntercepts, markVisited] using hmem3
    unfold drainFor at hmem4
    cases hlog : lookupKey url (clusterResolve cfg st url html
        (generate_structural_hash cfg.parse html)).network_logs with
    | none =>
      rw [hlog] at hmem4
      exact List.mem_append_left _ (allIntercepts_clusterResolve cfg st url html _ hmem4)
    | some buf =>
      rw [hlog] at hmem4
      rcases allIntercepts_drain hmem4 with hmem5 | hmem5
      · exact List.mem_append_left _ (allIntercepts_clusterResolve cfg st url html _ hmem5)
      · rw [clusterResolve_logs] at hlog
        exact List.mem_append_right _ (bufferPool_of_lookup hlog hnv hmem5)
  · -- still buffered after the visit
    have hmem4 : i ∈ bufferPool st.visited_urls (drainFor (clusterResolve cfg st url html
        (generate_structural_hash cfg.parse html)) url
        (generate_structural_hash cfg.parse html)).network_logs := by
      apply bufferPool_addUrl
      simpa [markVisited] using hmem3
    unfold drainFor at hmem4
    cases hlog : lookupKey url (clusterResolve cfg st url html
        (generate_structural_hash cfg.parse html)).network_logs with
    | none =>
      rw [hlog] at hmem4
      exact List.mem_append_right _ (by simpa using hmem4)
    | some buf =>
      rw [hlog] at hmem4
      simp only [clusterResolve_logs] at hmem4
      exact List.mem_append_right _ (bufferPool_removeKey hmem4)

theorem process_page_pool (cfg : ScoutConfig) (st : ScoutState) (url : String) (depth : Nat)
    (o : Outcome) (i : NetworkIntercept) (hnv : ¬ url ∈ st.visited_urls)
    (hi : ¬ i ∈ livePool st) : ¬ i ∈ livePool (process_page cfg st url depth o) := by
  cases o with
  | navFail => exact hi
  | loaded finalUrl content links =>
    simp only [process_page]
    split
    · exact hi
    · cases content with
      | none => exact hi
      | some html => exact successVisit_pool cfg st url depth html links i hnv hi

theorem crawlStep_pool (cfg : ScoutConfig) (st : ScoutState) (e : Event) (i : NetworkIntercept)
    (hdel : ∀ k j, delivers e = some (k, j) → j = i → k ∈ st.visited_urls)
    (hi : ¬ i ∈ livePool st) : ¬ i ∈ livePool (crawlStep cfg st e).1 := by
  cases e with
  | navScan links => simpa [crawlStep, livePool, allClusterIntercepts] using hi
  | addPriority u => simpa [crawlStep, livePool, allClusterIntercepts] using hi
  | response r =>
    simp only [crawlStep]
    unfold handle_response
    cases hb : builtIntercept r with
    | none => exact hi
    | some ki =>
      obtain ⟨k, j⟩ := ki
      intro hmem
      simp only [livePool, allClusterIntercepts] at hmem
      rcases List.mem_append.mp hmem with hmem | hmem
      · exact hi (List.mem_append_left _ hmem)
      · rcases bufferPool_appendLog hmem with hmem2 | ⟨hij, hknv⟩
        · exact hi (List.mem_append_right _ hmem2)
        · exact hknv (hdel k j (by simpa [delivers] using hb) hij.symm)
  | visit o =>
    simp only [crawlStep]
    split
    · split
      · exact hi
      · split
        · next hcond => exact hi
        · next hcond =>
          push_neg at hcond
          exact process_page_pool cfg _ _ _ o i hcond.1 hi
    · exact hi

theorem runTrace_pool (cfg : ScoutConfig) (tr : List Event) (st : ScoutState)
    (u : String) (i : NetworkIntercept) (hu : u ∈ st.visited_urls)
    (hi : ¬ i ∈ livePool st)
    (hdel : ∀ e ∈ tr, ∀ k j, delivers e = some (k, j) → j = i → k = u) :
    ¬ i ∈ livePool (runTrace cfg st tr) := by
  induction tr generalizing st with
  | nil => exact hi
  | cons e tr ih =>
    exact ih (crawlStep cfg st e).1 (crawlStep_visited_mono cfg st e u hu)
      (crawlStep_pool cfg st e i
        (fun k j hd hj => (hdel e (by simp) k j hd hj) ▸ hu) hi)
      (fun e2 he2 => hdel e2 (by simp [he2]))

theorem clusterResolve_lookup (cfg : ScoutConfig) (st : ScoutState) (url html h : String) :
    lookupKey h (clusterResolve cfg st url html h).clusters =
      some (match lookupKey h st.clusters with
            | none => createCluster cfg url h html
            | some c0 => bumpCluster url c0) := by
  unfold clusterResolve
  cases hc : lookupKey h st.clusters with
  | none =>
    rw [lookupKey_append_of_none h st.clusters _ hc]
    simp [lookupKey]
  | some c0 =>
    rw [lookupKey_updateFirst, hc]
    rfl

theorem drainFor_lookup_none (Y : ScoutState) (url h : String) :
    lookupKey url (drainFor Y url h).network_logs = none := by
  unfold drainFor
  cases hlog : lookupKey url Y.network_logs with
  | none => exact hlog
  | some buf => exact lookupKey_removeKey_self url Y.network_logs

theorem drainFor_cluster (Y : ScoutState) (url h : String) (rc : PageCluster)
    (hY : lookupKey h Y.clusters = some rc) :
    lookupKey h (drainFor Y url h).clusters =
      some { rc with network_intercepts :=
        rc.network_intercepts ++ (lookupKey url Y.network_logs).getD [] } := by
  unfold drainFor
  cases hlog : lookupKey url Y.network_logs with
  | none =>
    rw [hY]
    cases rc
    simp
  | some buf =>
    rw [lookupKey_updateFirst, hY]
    rfl

theorem successVisit_drain (cfg : ScoutConfig) (st : ScoutState) (url : String) (depth : Nat)
    (html : String) (links : List String) :
    lookupKey url (successVisit cfg st url depth html links).network_logs = none ∧
    url ∈ (successVisit cfg st url depth html links).visited_urls ∧
    ∃ c, lookupKey (generate_structural_hash cfg.parse html)
        (successVisit cfg st url depth html links).clusters = some c ∧
      c.network_intercepts =
        (match lookupKey (generate_structural_hash cfg.parse html) st.clusters with
         | some c0 => c0.network_intercepts
         | none => []) ++ ((lookupKey url st.network_logs).getD []) := by
  have hY := clusterResolve_lookup cfg st url html (generate_structural_hash cfg.parse html)
  have h1 := drainFor_lookup_none (clusterResolve cfg st url html
    (generate_structural_hash cfg.parse html)) url (generate_structural_hash cfg.parse html)
  have h2 := drainFor_cluster (clusterResolve cfg st url html
    (generate_structural_hash cfg.parse html)) url (generate_structural_hash cfg.parse html)
    _ hY
  rw [clusterResolve_logs] at h2
  refine ⟨?_, ?_, ?_⟩
  · unfold successVisit
    split <;> simpa [markVisited] using h1
  · unfold successVisit
    split <;> simp [markVisited] <;> exact mem_addUrl_self url _
  · have h3 : lookupKey (generate_structural_hash cfg.parse html)
        (successVisit cfg st url depth html links).clusters =
        some { (match lookupKey (generate_structural_hash cfg.parse html) st.clusters with
                | none => createCluster cfg url (generate_structural_hash cfg.parse html) html
                | some c0 => bumpCluster url c0) with
               network_intercepts :=
                 (match lookupKey (generate_structural_hash cfg.parse html) st.clusters with
                  | none => createCluster cfg url (generate_structural_hash cfg.parse html) html
                  | some c0 => bumpCluster url c0).network_intercepts ++
                   (lookupKey url st.network_logs).getD [] } := by
      unfold successVisit
      split <;> simpa [markVisited] using h2
    refine ⟨_, h3, ?_⟩
    cases hc : lookupKey (generate_structural_hash cfg.parse html) st.clusters with
    | none => simp [createCluster]
    | some c0 => simp [bumpCluster_intercepts]

/-- Claim C9: for every page URL, the intercept-buffer entry for that URL is
drained into the owning `PageCluster` and removed exactly once, immediately
after the page's cluster is determined; and every `NetworkIntercept` that
arrives for that URL after the drain is dropped — it is never appended to any
`PageCluster`'s `network_intercepts` list.  Part 1: on the successful visit
that determines the cluster, the buffer entry moves wholesale into the owning
cluster and the key is deleted (and the URL becomes visited, so no later
processing can drain it again).  Part 2: an intercept that is not already
live and is delivered only for an already-visited URL never appears in any
cluster.  Part 3: popping an already-visited URL never touches the registry. -/
theorem C9_intercept_drain :
    (∀ (cfg : ScoutConfig) (st : ScoutState) (url : String) (depth : Nat) (html : String)
       (links : List String),
      lookupKey url (successVisit cfg st url depth html links).network_logs = none ∧
      url ∈ (successVisit cfg st url depth html links).visited_urls ∧
      ∃ c, lookupKey (generate_structural_hash cfg.parse html)
          (successVisit cfg st url depth html links).clusters = some c ∧
        c.network_intercepts =
          (match lookupKey (generate_structural_hash cfg.parse html) st.clusters with
           | some c0 => c0.network_intercepts
           | none => []) ++ ((lookupKey url st.network_logs).getD [])) ∧
    (∀ (cfg : ScoutConfig) (st : ScoutState) (tr : List Event) (u : String)
       (i : NetworkIntercept),
      u ∈ st.visited_urls → ¬ i ∈ livePool st →
      (∀ e ∈ tr, ∀ k j, delivers e = some (k, j) → j = i → k = u) →
      ¬ i ∈ allClusterIntercepts (runTrace cfg st tr)) ∧
    (∀ (cfg : ScoutConfig) (st : ScoutState) (o : Outcome) (url : String) (depth : Nat)
       (rest : List (String × Nat)),
      st.url_queue = (url, depth) :: rest → url ∈ st.visited_urls →
      (crawlStep cfg st (.visit o)).1.clusters = st.clusters) := by
  refine ⟨?_, ?_, ?_⟩
  · exact fun cfg st url depth html links => successVisit_drain cfg st url depth html links
  · intro cfg st tr u i hu hi hdel
    intro hmem
    exact runTrace_pool cfg tr st u i hu hi hdel
      (List.mem_append_left _ hmem)
  · intro cfg st o url depth rest hq hvis
    simp only [crawlStep, hq]
    rcases Nat.lt_or_ge st.pages_crawled cfg.max_pages with hlt | hge
    · rw [if_pos hlt, if_pos (Or.inl hvis)]
    · rw [if_neg (Nat.not_lt.mpr hge)]

/-! ### The login verification fallback (C7) -/

/-- Counterexample to claim C7: with no post-login indicator found, the code
verifies the login for a post-submit URL that differs from the base URL, as
long as it merely lacks a login-related segment — the source combines the two
URL conditions with `or`, not `and` as the claim states. -/
theorem C7_login_fallback_counterexample :
    login_verified false "http://s.com" "http://s.com/dashboard" = true ∧
    "http://s.com/dashboard" ≠ "http://s.com" := by
  constructor
  · rfl
  · decide

/-- Amended claim C7: when no post-login indicator element is found, the
Verified state is reached if and only if the post-submit URL equals the base
site URL or does not contain the substring "login" (case-insensitively); in
particular a URL that differs from the base URL but contains a login-related
segment does not yield Verified, and finding an indicator always verifies. -/
theorem C7_login_fallback_amended :
    (∀ base current : String, login_verified true base current = true) ∧
    (∀ base current : String,
      login_verified false base current = true ↔
        (current = base ∨ containsStr (strLower current) "login" = false)) := by
  constructor
  · intro base current
    rfl
  · intro base current
    simp [login_verified]

/-- Amended claim C6: links discovered on a visited page are appended at
`depth + 1` with no per-page cap; the 10-link cap exists only in the one-time
navigation-menu scan, whose non-important links are appended at depth 1 (at
most 10 of them) while important links are pushed to the front at depth 0. -/
theorem C6_fanout_amended :
    (∀ (cfg : ScoutConfig) (st : ScoutState) (url : String) (depth : Nat) (o : Outcome),
      ∃ ext, (process_page cfg st url depth o).url_queue = st.url_queue ++ ext ∧
        ∀ e ∈ ext, e.2 = depth + 1) ∧
    (∀ (cfg : ScoutConfig) (st : ScoutState) (navLinks : List String),
      ∃ pri reg, (extract_nav_links cfg st navLinks).url_queue = pri ++ st.url_queue ++ reg ∧
        reg.length ≤ 10 ∧ (∀ e ∈ reg, e.2 = 1) ∧ (∀ e ∈ pri, e.2 = 0)) :=
  ⟨fun cfg st url depth o => process_page_queue cfg st url depth o,
   fun cfg st navLinks => extract_nav_links_queue cfg st navLinks⟩

/-- Counterexample to claim C5: after the homepage enqueues the same link
twice and its first copy is processed, the second copy is popped from the
frontier while its URL is already a member of the VisitedSet — the pop is
skipped, but it does happen, so "never popped again" is false on the code. -/
theorem C5_no_revisits_counterexample :
    (⟨"http://s.com/a", 1, true, false⟩ : PopRec) ∈
      runLog exCfg (initState exCfg) traceC5 := by decide

/-- Witness for the amended C5 at a concrete state and trace. -/
theorem C5_no_reprocess_amended_witness :
    (⟨"http://s.com/a", 1, true, false⟩ : PopRec) ∈
      runLog exCfg stVisited [.visit .navFail] ∧
    (⟨"http://s.com/a", 1, true, false⟩ : PopRec).processed = false :=
  ⟨by decide,
   C5_no_reprocess_amended exCfg stVisited [.visit .navFail] "http://s.com/a" (by decide)
     ⟨"http://s.com/a", 1, true, false⟩ (by decide) rfl⟩

/-- Counterexample to claim C6: a visited page carrying 11 same-domain links
gets all 11 of them enqueued at depth 1 — `_extract_links` applies no
per-page cap of 10, so the 11th link is enqueued too. -/
theorem C6_fanout_counterexample :
    ("http://s.com/p11", 1) ∈ (runTrace exCfg (initState exCfg) traceC6).url_queue ∧
    (runTrace exCfg (initState exCfg) traceC6).url_queue.length = 11 := by decide

/-- Witness for the amended C6 at a concrete page visit and nav scan. -/
theorem C6_fanout_amended_witness :
    (∃ ext, (process_page exCfg (initState exCfg) "http://s.com" 0
        (.loaded "http://s.com" (some "<home>") linksC6)).url_queue =
      (initState exCfg).url_queue ++ ext ∧ ∀ e ∈ ext, e.2 = 0 + 1) ∧
    (∃ pri reg, (extract_nav_links exCfg (initState exCfg) linksC6).url_queue =
      pri ++ (initState exCfg).url_queue ++ reg ∧ reg.length ≤ 10 ∧
      (∀ e ∈ reg, e.2 = 1) ∧ (∀ e ∈ pri, e.2 = 0)) :=
  ⟨C6_fanout_amended.1 exCfg (initState exCfg) "http://s.com" 0 _,
   C6_fanout_amended.2 exCfg (initState exCfg) linksC6⟩

/-- Witness for C3 at concrete runs: the budget bound on a run, the depth
bound on a processed pop of that run, and the no-budget-charge fact for a
queue whose head exceeds `max_depth`. -/
theorem C3_budget_respect_witness :
    (runTrace exCfg (initState exCfg) traceC5).pages_crawled ≤ exCfg.max_pages ∧
    (⟨"http://s.com", 0, false, true⟩ : PopRec).depth ≤ exCfg.max_depth ∧
    (crawlStep exCfg stDeep (.visit .navFail)).1.pages_crawled = stDeep.pages_crawled :=
  ⟨C3_budget_respect.1 exCfg traceC5,
   C3_budget_respect.2.1 exCfg traceC5 ⟨"http://s.com", 0, false, true⟩ (by decide) rfl,
   (C3_budget_respect.2.2 exCfg stDeep .navFail "http://s.com/deep" 4 [] rfl (by decide)).1⟩

/-- Witness for C4: the first cluster produced by a concrete run respects the
sample cap. -/
theorem C4_sample_cap_witness :
    ((runTrace exCfg (initState exCfg) traceC5).clusters.headD
        ("", createCluster exCfg "" "" "")).2.sample_urls.length ≤ 5 :=
  C4_sample_cap exCfg traceC5 _ (by decide)

/-- Witness for C9: a concrete successful visit drains and deletes its buffer
entry; an intercept delivered for an already-visited URL never reaches a
cluster; and a pop of a visited URL leaves the registry unchanged. -/
theorem C9_intercept_drain_witness :
    (lookupKey "http://s.com"
        (successVisit exCfg (initState exCfg) "http://s.com" 0 "<home>" []).network_logs =
          none ∧
      "http://s.com" ∈
        (successVisit exCfg (initState exCfg) "http://s.com" 0 "<home>" []).visited_urls ∧
      ∃ c, lookupKey (generate_structural_hash exCfg.parse "<home>")
          (successVisit exCfg (initState exCfg) "http://s.com" 0 "<home>" []).clusters =
            some c ∧
        c.network_intercepts =
          (match lookupKey (generate_structural_hash exCfg.parse "<home>")
              (initState exCfg).clusters with
           | some c0 => c0.network_intercepts
           | none => []) ++
            ((lookupKey "http://s.com" (initState exCfg).network_logs).getD [])) ∧
    ¬ i9 ∈ allClusterIntercepts (runTrace exCfg st9 [.response r9]) ∧
    (crawlStep exCfg st9q (.visit .navFail)).1.clusters = st9q.clusters := by
  refine ⟨?_, ?_, ?_⟩
  · exact C9_intercept_drain.1 exCfg (initState exCfg) "http://s.com" 0 "<home>" []
  · refine C9_intercept_drain.2.1 exCfg st9 [.response r9] "http://s.com/a" i9
      (by decide) (by decide) ?_
    intro e he k j hd hj
    simp only [List.mem_singleton] at he
    subst he
    have hstep : delivers (Event.response r9) = some ("http://s.com/a", i9) := rfl
    rw [hstep] at hd
    simp at hd
    exact hd.1.symm
  · exact C9_intercept_drain.2.2 exCfg st9q .navFail "http://s.com/a" 1 [] rfl (by decide)

end UXAgent
